import Mathlib

/-!
# Verification of the AntigravityManager LLM gateway core

A shallow embedding, in Lean 4, of the proxy orchestrator, token pool and
upstream client of this repository
(`src/server/modules/proxy/proxy.service.ts`,
`src/server/modules/proxy/clients/gemini.client.ts`), together with theorems
settling the specification claims about retry classification, account
selection, session stickiness, project-id sanitisation, endpoint failover,
the empty-response stream fallback and the OpenAI SSE stream shape.

JavaScript `Map`s whose iteration order matters (the token pool) are modelled
as insertion-ordered association lists; maps used only through get/set/delete
(cooldowns, session bindings) are modelled as functions into `Option`.
External effects (the account store, the OAuth refresher, UUID generation,
wall-clock reads) are passed in as explicit parameters.
-/

namespace S2P

/-! ## String helpers

`kwIn needle hay` is substring containment on the underlying character
lists; it models JavaScript `String.prototype.includes`. -/

def kwAt : List Char → List Char → Bool
  | [], _ => true
  | _ :: _, [] => false
  | a :: as, b :: bs => a == b && kwAt as bs

def kwIn (hay needle : String) : Bool :=
  go needle.data hay.data
where
  go (n : List Char) : List Char → Bool
    | [] => kwAt n []
    | c :: cs => kwAt n (c :: cs) || go n cs

/-- JavaScript string truthiness for an optional string field:
`undefined` and the empty string are falsy. -/
def strTruthy : Option String → Bool
  | none => false
  | some s => s ≠ ""

/-- Character-wise ASCII lowercasing, modelling `String.prototype.toLowerCase`
on the ASCII keywords the classifier matches (kernel-reducible, unlike
`String.toLower`). -/
def strToLower (s : String) : String :=
  String.mk (s.data.map Char.toLower)

/-! ## Error classification (`proxy.service.ts`, `classifyUpstreamError`) -/

structure RetryDecision where
  retry : Bool
  markAsForbidden : Bool
  markAsRateLimited : Bool
deriving Repr, DecidableEq

/-- Embedding of `ProxyService.classifyUpstreamError`
(`proxy.service.ts` lines 1397-1456).  The source lowercases the message,
checks the forbidden keywords, and otherwise retries on status keywords or
transport keywords, marking rate-limited on the rate-limit signal. -/
def classifyUpstreamError (errorMessage : String) : RetryDecision :=
  let msg := strToLower errorMessage
  if kwIn msg "401" || kwIn msg "unauthorized" || kwIn msg "invalid_grant" ||
      kwIn msg "403" || kwIn msg "permission_denied" || kwIn msg "forbidden" then
    ⟨true, true, false⟩
  else if (kwIn msg "408" || kwIn msg "429" || kwIn msg "500" ||
        kwIn msg "502" || kwIn msg "503" || kwIn msg "504") ||
      (kwIn msg "resource_exhausted" || kwIn msg "quota" || kwIn msg "rate_limit" ||
        kwIn msg "timeout" || kwIn msg "socket hang up" ||
        kwIn msg "empty response stream" || kwIn msg "connection reset") then
    ⟨true, false,
      kwIn msg "429" || kwIn msg "resource_exhausted" || kwIn msg "quota" ||
        kwIn msg "rate_limit" || kwIn msg "rate limit"⟩
  else
    ⟨false, false, false⟩

/-- The classifier exactly as the spec words it (§4.6 "error-classification",
an ordered taxonomy): forbidden keywords first, then the rate-limit keyword
set `{429, resource_exhausted, quota, rate_limit}`, then the transient
statuses and transport keywords with no marking. -/
def specClassifyUpstreamError (errorMessage : String) : RetryDecision :=
  let msg := strToLower errorMessage
  if kwIn msg "401" || kwIn msg "unauthorized" || kwIn msg "invalid_grant" ||
      kwIn msg "403" || kwIn msg "permission_denied" || kwIn msg "forbidden" then
    ⟨true, true, false⟩
  else if kwIn msg "429" || kwIn msg "resource_exhausted" || kwIn msg "quota" ||
      kwIn msg "rate_limit" then
    ⟨true, false, true⟩
  else if kwIn msg "408" || kwIn msg "500" || kwIn msg "502" || kwIn msg "503" ||
      kwIn msg "504" || kwIn msg "socket hang up" || kwIn msg "timeout" ||
      kwIn msg "empty response stream" || kwIn msg "connection reset" then
    ⟨true, false, false⟩
  else
    ⟨false, false, false⟩

/-- The amended taxonomy: identical to `specClassifyUpstreamError` except
that in the transient branch the account is still marked rate-limited when
the message also contains the phrase "rate limit" (with a space), which the
code treats as a rate-limit signal. -/
def specClassifyUpstreamErrorAmended (errorMessage : String) : RetryDecision :=
  let msg := strToLower errorMessage
  if kwIn msg "401" || kwIn msg "unauthorized" || kwIn msg "invalid_grant" ||
      kwIn msg "403" || kwIn msg "permission_denied" || kwIn msg "forbidden" then
    ⟨true, true, false⟩
  else if kwIn msg "429" || kwIn msg "resource_exhausted" || kwIn msg "quota" ||
      kwIn msg "rate_limit" then
    ⟨true, false, true⟩
  else if kwIn msg "408" || kwIn msg "500" || kwIn msg "502" || kwIn msg "503" ||
      kwIn msg "504" || kwIn msg "socket hang up" || kwIn msg "timeout" ||
      kwIn msg "empty response stream" || kwIn msg "connection reset" then
    ⟨true, false, kwIn msg "rate limit"⟩
  else
    ⟨false, false, false⟩

/-! ## Token pool (`proxy.service.ts`, `TokenManagerService`, lines 1531-1828)

The `tokens` JavaScript `Map` is an insertion-ordered association list (its
iteration order drives round-robin selection); `cooldowns` and
`sessionBindings` are accessed only by key, so they are functions into
`Option`.  Wall clock (`Date.now()`), the account store
(`CloudAccountRepo`), the OAuth refresher (`GoogleAPIService`) and the
random session-id generator are explicit parameters. -/

/-- Character-wise whitespace trimming, modelling `String.prototype.trim`. -/
def strTrim (s : String) : String :=
  String.mk (((s.data.dropWhile Char.isWhitespace).reverse.dropWhile Char.isWhitespace).reverse)

structure StoredToken where
  access_token : String
  refresh_token : String
  token_type : Option String
  expires_in : Nat
  expiry_timestamp : Nat
  project_id : Option String
  session_id : Option String
  upstream_proxy_url : Option String
deriving Repr, DecidableEq

structure StoredAccount where
  id : String
  email : String
  token : Option StoredToken
deriving Repr, DecidableEq

structure TokenData where
  email : String
  account_id : String
  access_token : String
  refresh_token : String
  token_type : String
  expires_in : Nat
  expiry_timestamp : Nat
  project_id : Option String
  session_id : Option String
  upstream_proxy_url : Option String
deriving Repr, DecidableEq

structure TokenM where
  access_token : String
  refresh_token : String
  token_type : String
  expires_in : Nat
  expiry_timestamp : Nat
  project_id : Option String
  session_id : Option String
  upstream_proxy_url : Option String
deriving Repr, DecidableEq

/-- The `CloudAccount` shape `finalizeSelectedToken` returns. -/
structure CloudAccountM where
  id : String
  provider : String
  email : String
  token : TokenM
  created_at : Nat
  last_used : Nat
deriving Repr, DecidableEq

structure SessionBinding where
  accountId : String
  expiresAt : Nat
deriving Repr, DecidableEq

structure PoolState where
  currentIndex : Nat
  tokens : List (String × TokenData)
  cooldowns : String → Option Nat
  sessionBindings : String → Option SessionBinding

/-- `Map.prototype.set`: update in place (preserving insertion order) or
append a fresh entry. -/
def mapSet {α : Type} (l : List (String × α)) (k : String) (v : α) : List (String × α) :=
  if l.any (fun p => p.1 = k) then l.map (fun p => if p.1 = k then (k, v) else p)
  else l ++ [(k, v)]

/-- Pointwise update of a function-backed map. -/
def fnSet {α : Type} (f : String → Option α) (k : String) (v : α) : String → Option α :=
  fun q => if q = k then some v else f q

/-- `TokenManagerService.convertAccountToToken`: accounts without a token are
skipped; `token_type`, `project_id`, `upstream_proxy_url` apply JavaScript
`||` defaulting (empty strings are falsy); a falsy `session_id` is replaced
by a generated one (`gen` stands in for the random generator). -/
def convertAccountToToken (gen : String) (account : StoredAccount) : Option TokenData :=
  match account.token with
  | none => none
  | some t => some {
      account_id := account.id
      email := account.email
      access_token := t.access_token
      refresh_token := t.refresh_token
      token_type := match t.token_type with
        | some s => if s = "" then "Bearer" else s
        | none => "Bearer"
      expires_in := t.expires_in
      expiry_timestamp := t.expiry_timestamp
      project_id := match t.project_id with
        | some s => if s = "" then none else some s
        | none => none
      session_id := match t.session_id with
        | some s => if s = "" then some gen else some s
        | none => some gen
      upstream_proxy_url := match t.upstream_proxy_url with
        | some s => if s = "" then none else some s
        | none => none }

/-- `TokenManagerService.loadAccounts`, folded over the store's accounts. -/
def loadAccounts (gen : String) (store : List StoredAccount)
    (tokens : List (String × TokenData)) : List (String × TokenData) :=
  store.foldl (fun ts acc =>
    match convertAccountToToken gen acc with
    | some td => mapSet ts acc.id td
    | none => ts) tokens

/-- `/^cloud-code-\d+$/i.test(s.trim())`: after trimming and ASCII
lowercasing, the string is exactly `cloud-code-` followed by one or more
decimal digits. -/
def isSyntheticProjectId (s : String) : Bool :=
  let t := (strTrim s).data.map Char.toLower
  kwAt "cloud-code-".data t && (let rest := t.drop 11; !rest.isEmpty && rest.all Char.isDigit)

/-- The project-id sanitisation inside `finalizeSelectedToken` (lines
1719-1725): non-strings, blank strings and synthetic `cloud-code-<n>` ids
are discarded. -/
def sanitizeProjectId (p : Option String) : Option String :=
  match p with
  | none => none
  | some s => if strTrim s = "" then none else if isSyntheticProjectId s then none else some s

def stickySessionTtlMs : Nat := 10 * 60 * 1000
def rateLimitCooldownMs : Nat := 5 * 60 * 1000
def forbiddenCooldownMs : Nat := 30 * 60 * 1000

structure RefreshResult where
  access_token : String
  expires_in : Nat
deriving Repr, DecidableEq

/-- `TokenManagerService.finalizeSelectedToken` (lines 1691-1759).
`refresh` models `GoogleAPIService.refreshAccessToken` (`none` = the
refresh call failed, in which case the stale token is used).  The selected
`tokenData` object is aliased inside the `tokens` map in the source, so its
mutations (refresh fields, project-id sanitisation) persist in the pool;
`mapSet` reflects that.  The JavaScript guard `nowSeconds >=
expiry_timestamp - 300` is written overflow-safely as
`nowSeconds + 300 ≥ expiry_timestamp`. -/
def finalizeSelectedToken (refresh : String → Option RefreshResult) (st : PoolState)
    (accountId : String) (tokenData : TokenData) (nowMs : Nat)
    (sessionKey : Option String) : CloudAccountM × PoolState :=
  let nowSeconds := nowMs / 1000
  let td :=
    if nowSeconds + 300 ≥ tokenData.expiry_timestamp then
      match refresh tokenData.refresh_token with
      | some r => { tokenData with
          access_token := r.access_token
          expires_in := r.expires_in
          expiry_timestamp := nowSeconds + r.expires_in }
      | none => tokenData
    else tokenData
  let td := { td with project_id := sanitizeProjectId td.project_id }
  let bindings :=
    match sessionKey with
    | some sk => fnSet st.sessionBindings sk ⟨accountId, nowMs + stickySessionTtlMs⟩
    | none => st.sessionBindings
  let acc : CloudAccountM := {
    id := accountId
    provider := "google"
    email := td.email
    token := {
      access_token := td.access_token
      refresh_token := td.refresh_token
      token_type := td.token_type
      expires_in := td.expires_in
      expiry_timestamp := td.expiry_timestamp
      project_id := td.project_id
      session_id := td.session_id
      upstream_proxy_url := td.upstream_proxy_url }
    created_at := nowMs
    last_used := nowMs }
  (acc, { st with tokens := mapSet st.tokens accountId td, sessionBindings := bindings })

/-- `clearExpiredSessionBindings`: drop bindings with `expiresAt ≤ now`. -/
def clearExpiredSessionBindings (f : String → Option SessionBinding) (now : Nat) :
    String → Option SessionBinding :=
  fun k =>
    match f k with
    | some b => if b.expiresAt ≤ now then none else some b
    | none => none

/-- `options?.sessionKey?.trim()` followed by the JavaScript truthiness
check `if (sessionKey)`. -/
def normalizedSessionKey (o : Option String) : Option String :=
  match o with
  | some s => let t := strTrim s; if t = "" then none else some t
  | none => none

/-- Step 2 of the selection: drop excluded accounts, falling back to the full
pool when exclusions remove everything. -/
def allTokensAfterExclusion (tokens : List (String × TokenData)) (excluded : List String) :
    List (String × TokenData) :=
  let excludedFiltered := tokens.filter (fun p => !(excluded.contains p.1))
  if excludedFiltered.isEmpty then tokens else excludedFiltered

/-- Step 4's cooldown filter over `allTokens` (the exclusion check repeats
the one from step 2, as in the source). -/
def validTokensOf (allT : List (String × TokenData)) (excluded : List String)
    (cooldowns : String → Option Nat) (now : Nat) : List (String × TokenData) :=
  allT.filter (fun p =>
    !(excluded.contains p.1) &&
      (match cooldowns p.1 with
       | some cooldownUntil => cooldownUntil ≤ now
       | none => true))

/-- The candidate set `getNextToken` selects from: cooldown-free accounts,
falling back to the pre-cooldown set when every candidate is cooling. -/
def computeCandidates (tokens : List (String × TokenData)) (excluded : List String)
    (cooldowns : String → Option Nat) (now : Nat) : List (String × TokenData) :=
  let allT := allTokensAfterExclusion tokens excluded
  let validT := validTokensOf allT excluded cooldowns now
  if validT.isEmpty then allT else validT

structure SelectOptions where
  sessionKey : Option String := none
  excludeAccountIds : List String := []

/-- Step 1 of the selection: reload the pool from the store when it is
empty (`if (this.tokens.size === 0) await this.loadAccounts()`). -/
def effectivePool (gen : String) (store : List StoredAccount)
    (tokens : List (String × TokenData)) : List (String × TokenData) :=
  if tokens.isEmpty then loadAccounts gen store tokens else tokens

/-- `TokenManagerService.getNextToken` (lines 1613-1689): reload when empty,
drop expired session bindings, compute candidates, prefer a live sticky
binding whose account is among the candidates, otherwise round-robin and
bump `currentIndex`; the winner goes through `finalizeSelectedToken`. -/
def getNextToken (refresh : String → Option RefreshResult) (gen : String)
    (store : List StoredAccount) (st : PoolState) (opts : SelectOptions)
    (nowMs : Nat) : Option CloudAccountM × PoolState :=
  let tokens0 := effectivePool gen store st.tokens
  let st := { st with tokens := tokens0 }
  if tokens0.isEmpty then (none, st)
  else
    let sessionKey := normalizedSessionKey opts.sessionKey
    let excluded := opts.excludeAccountIds
    let st := { st with sessionBindings := clearExpiredSessionBindings st.sessionBindings nowMs }
    match computeCandidates tokens0 excluded st.cooldowns nowMs with
    | [] => (none, st)
    | c :: cs =>
      let sticky : Option (String × TokenData) :=
        match sessionKey with
        | some sk =>
          match st.sessionBindings sk with
          | some b =>
            if nowMs < b.expiresAt then (c :: cs).find? (fun p => p.1 = b.accountId)
            else none
          | none => none
        | none => none
      match sticky with
      | some (aid, td) =>
        let r := finalizeSelectedToken refresh st aid td nowMs sessionKey
        (some r.1, r.2)
      | none =>
        let sel := (c :: cs).get
          ⟨st.currentIndex % (c :: cs).length, Nat.mod_lt _ (Nat.succ_pos cs.length)⟩
        let st := { st with currentIndex := st.currentIndex + 1 }
        let r := finalizeSelectedToken refresh st sel.1 sel.2 nowMs sessionKey
        (some r.1, r.2)

/-- `TokenManagerService.resolveAccountId`: an exact id hit wins, otherwise
the first account whose email matches. -/
def resolveAccountId (tokens : List (String × TokenData)) (accountIdOrEmail : String) :
    Option String :=
  if tokens.any (fun p => p.1 = accountIdOrEmail) then some accountIdOrEmail
  else (tokens.find? (fun p => p.2.email = accountIdOrEmail)).map (fun p => p.1)

/-- `TokenManagerService.markInCooldown` (lines 1791-1803). -/
def markInCooldown (st : PoolState) (accountIdOrEmail : String) (nowMs durationMs : Nat) :
    PoolState :=
  let accountId := (resolveAccountId st.tokens accountIdOrEmail).getD accountIdOrEmail
  { st with cooldowns := fnSet st.cooldowns accountId (nowMs + durationMs) }

def markAsRateLimited (st : PoolState) (accountIdOrEmail : String) (nowMs : Nat) : PoolState :=
  markInCooldown st accountIdOrEmail nowMs rateLimitCooldownMs

def markAsForbidden (st : PoolState) (accountIdOrEmail : String) (nowMs : Nat) : PoolState :=
  markInCooldown st accountIdOrEmail nowMs forbiddenCooldownMs

/-- The orchestrator's marking step in every handler's catch block
(`proxy.service.ts` lines 658-665 and its three clones): classification
gates only which cooldown is applied. -/
def applyRetryMarking (st : PoolState) (decision : RetryDecision) (accountId : String)
    (nowMs : Nat) : PoolState :=
  if decision.retry then
    if decision.markAsForbidden then markAsForbidden st accountId nowMs
    else if decision.markAsRateLimited then markAsRateLimited st accountId nowMs
    else st
  else st

/-! ## The orchestrator retry loop

All four public handlers (`handleChatCompletions` lines 537-670,
`handleAnthropicMessages` 45-181, `handleGeminiGenerateContent` 270-356,
`handleGeminiStreamGenerateContent` 358-445) share this skeleton verbatim:
`maxRetries = 3`; per iteration select a token excluding every previously
attempted account id, add the selected id to `attemptedAccountIds`, run the
attempt; on failure remember `lastError`, classify it (the classification is
used only to pick a cooldown marking — see `applyRetryMarking`) and continue
the loop; after the loop throw `lastError` (or a last-resort message).
`select` abstracts `tokenManager.getNextToken` applied to the accumulated
exclusion list; `attempt` abstracts the whole try-block including its inline
fallbacks. -/

def maxRetries : Nat := 3

structure AttemptRecord (α : Type) where
  excludeAccountIds : List String
  selectedId : String
  outcome : Except String α
deriving Repr

def runRetryLoopAux {α : Type} (select : List String → Option CloudAccountM)
    (attempt : CloudAccountM → Except String α) (noAccountsMsg lastResortMsg : String) :
    Nat → List String → Option String → Except String α × List (AttemptRecord α)
  | 0, _, lastError => (Except.error (lastError.getD lastResortMsg), [])
  | Nat.succ fuel, attempted, _ =>
    match select attempted with
    | none => (Except.error noAccountsMsg, [])
    | some token =>
      match attempt token with
      | Except.ok a => (Except.ok a, [⟨attempted, token.id, Except.ok a⟩])
      | Except.error e =>
        let r := runRetryLoopAux select attempt noAccountsMsg lastResortMsg fuel
          (attempted ++ [token.id]) (some e)
        (r.1, ⟨attempted, token.id, Except.error e⟩ :: r.2)

def runRetryLoop {α : Type} (select : List String → Option CloudAccountM)
    (attempt : CloudAccountM → Except String α) (noAccountsMsg lastResortMsg : String) :
    Except String α × List (AttemptRecord α) :=
  runRetryLoopAux select attempt noAccountsMsg lastResortMsg maxRetries [] none

/-! ## Upstream client (`clients/gemini.client.ts`) -/

structure UpstreamErrObj where
  message : Option String
deriving Repr, DecidableEq

structure UpstreamErrData where
  error : Option UpstreamErrObj
deriving Repr, DecidableEq

structure AxiosRespM where
  status : Nat
  data : Option UpstreamErrData
deriving Repr, DecidableEq

/-- An error raised by an `axios.post` call: `isAxiosErr = false` models a
non-Axios exception (re-thrown as a clean `Error` with the same message);
`response = none` models a transport failure with no HTTP response. -/
structure AxiosErrM where
  isAxiosErr : Bool
  response : Option AxiosRespM
  message : String
deriving Repr, DecidableEq

/-- `GeminiClient.extractAxiosErrorMessage` (lines 227-239): the upstream
body's `error.message`, provided it is a string that is non-empty after
trimming. -/
def extractAxiosErrorMessage (responseData : Option UpstreamErrData) : Option String :=
  match responseData with
  | none => none
  | some d =>
    match d.error with
    | none => none
    | some o =>
      match o.message with
      | some m => if strTrim m ≠ "" then some m else none
      | none => none

/-- `GeminiClient.shouldSwitchEndpointOnError` (lines 146-163). -/
def shouldSwitchEndpointOnError (e : AxiosErrM) : Bool :=
  if !e.isAxiosErr then false
  else
    match e.response with
    | none => true
    | some r =>
      if r.status = 401 || r.status = 403 then false
      else r.status = 408 || r.status = 429 || decide (500 ≤ r.status)

/-- The spec's transient-failure predicate, worded from the claim: "no HTTP
response, or status 408, 429, or any status >= 500" (for an upstream-call
failure, i.e. an Axios error). -/
def specTransientFailure (e : AxiosErrM) : Bool :=
  e.isAxiosErr &&
    (match e.response with
     | none => true
     | some r => r.status = 408 || r.status = 429 || decide (500 ≤ r.status))

/-- `error.response?.data`. -/
def respDataOf (e : AxiosErrM) : Option UpstreamErrData :=
  match e.response with
  | some r => r.data
  | none => none

/-- `GeminiClient.handleAxiosError` / `throwAsCleanError`: the message of the
`Error` finally thrown for a given upstream failure. -/
def handleAxiosErrorMsg (e : AxiosErrM) : String :=
  if e.isAxiosErr then (extractAxiosErrorMessage (respDataOf e)).getD e.message
  else e.message

/-- `GeminiClient.requestWithEndpointFailover` (lines 165-213), with the
outcome of posting to each configured base URL supplied as a list.  Returns
the overall result together with how many endpoints were tried.  The
source's `!hasNextEndpoint || !shouldSwitchEndpointOnError(error)` guard
throws from inside the loop; the trailing `handleAxiosError(lastError)`
(reached only when `baseUrls` is empty, when it throws on `null`) is the
`[]` case. -/
def requestWithEndpointFailoverAux {T : Type} :
    List (Except AxiosErrM T) → Option AxiosErrM → Except String T × Nat
  | [], lastError =>
    (Except.error (match lastError with
      | some e => handleAxiosErrorMsg e
      | none => "null"), 0)
  | o :: rest, _ =>
    match o with
    | Except.ok t => (Except.ok t, 1)
    | Except.error e =>
      if rest.isEmpty || !shouldSwitchEndpointOnError e then
        (Except.error (handleAxiosErrorMsg e), 1)
      else
        let r := requestWithEndpointFailoverAux rest (some e)
        (r.1, r.2 + 1)

def requestWithEndpointFailover {T : Type} (outcomes : List (Except AxiosErrM T)) :
    Except String T × Nat :=
  requestWithEndpointFailoverAux outcomes none

/-! ## Gemini responses and SSE streams -/

/-- Minimal JSON values, for `JSON.stringify`-ed tool-call arguments. -/
inductive JsonM where
  | null
  | bool (b : Bool)
  | num (n : Int)
  | str (s : String)
  | arr (elems : List JsonM)
  | obj (fields : List (String × JsonM))

def jsonEscape (s : String) : String :=
  s.data.foldl (fun acc c =>
    acc ++ (if c = '"' then "\\\"" else if c = '\\' then "\\\\" else String.singleton c)) ""

mutual

def jsonStringify : JsonM → String
  | JsonM.null => "null"
  | JsonM.bool b => cond b "true" "false"
  | JsonM.num n => toString n
  | JsonM.str s => "\"" ++ jsonEscape s ++ "\""
  | JsonM.arr xs => "[" ++ jsonStringifyList xs ++ "]"
  | JsonM.obj fs => "\x7b" ++ jsonStringifyFields fs ++ "\x7d"

def jsonStringifyList : List JsonM → String
  | [] => ""
  | [x] => jsonStringify x
  | x :: y :: rest => jsonStringify x ++ "," ++ jsonStringifyList (y :: rest)

def jsonStringifyFields : List (String × JsonM) → String
  | [] => ""
  | [(k, v)] => "\"" ++ jsonEscape k ++ "\":" ++ jsonStringify v
  | (k, v) :: f :: rest =>
    "\"" ++ jsonEscape k ++ "\":" ++ jsonStringify v ++ "," ++ jsonStringifyFields (f :: rest)

end

structure FunctionCallM where
  id : Option String
  name : String
  args : Option JsonM

structure InlineDataM where
  mimeType : Option String
  data : Option String
deriving Repr, DecidableEq

structure GeminiPartM where
  thought : Bool := false
  text : Option String := none
  functionCall : Option FunctionCallM := none
  inlineData : Option InlineDataM := none

structure GeminiContentM where
  role : Option String
  parts : List GeminiPartM

structure GeminiCandidateM where
  content : Option GeminiContentM
  finishReason : Option String
  index : Option Nat

structure UsageMetadataM where
  promptTokenCount : Option Nat := none
  candidatesTokenCount : Option Nat := none
  totalTokenCount : Option Nat := none
  thoughtsTokenCount : Option Nat := none
deriving Repr, DecidableEq

structure GeminiResponseM where
  candidates : List GeminiCandidateM
  usageMetadata : Option UsageMetadataM

/-- `ProxyService.hasUsableGeminiCandidate` (lines 698-707). -/
def hasUsableGeminiCandidate (response : GeminiResponseM) : Bool :=
  match response.candidates with
  | [] => false
  | first :: _ =>
    match first.content with
    | some ct => !ct.parts.isEmpty
    | none => false

/-- One complete line of an upstream SSE stream, after the buffering/
line-splitting of the `data` handler.  `dataLine none` is a `data: ` line
whose JSON fails to parse; `doneLine` is `data: [DONE]`; `otherLine` is any
line not starting with `data: `. -/
inductive SseLine where
  | dataLine (parsed : Option GeminiResponseM)
  | doneLine
  | otherLine

/-- Accumulator step of `collectGeminiStreamAsResponse`: merged parts, the
last (truthy) `finishReason`, the last `usageMetadata`.  The source filters
parts through `isGeminiPart` (an is-object check), which is the identity on
the typed parts. -/
def collectStep (acc : List GeminiPartM × Option String × Option UsageMetadataM)
    (l : SseLine) : List GeminiPartM × Option String × Option UsageMetadataM :=
  match l with
  | SseLine.dataLine (some parsed) =>
    let cand := parsed.candidates.head?
    let parts1 :=
      match cand with
      | some c =>
        match c.content with
        | some ct => acc.1 ++ ct.parts
        | none => acc.1
      | none => acc.1
    let fr1 :=
      match cand with
      | some c =>
        match c.finishReason with
        | some fr => if fr ≠ "" then some fr else acc.2.1
        | none => acc.2.1
      | none => acc.2.1
    let um1 :=
      match parsed.usageMetadata with
      | some um => some um
      | none => acc.2.2
    (parts1, fr1, um1)
  | _ => acc

/-- `ProxyService.collectGeminiStreamAsResponse` (lines 709-783).  The
upstream stream is given as the list of `data` events, each carrying the
complete SSE lines it contributes; `receivedData` is set by any `data`
event.  On `end` without data the promise rejects with
`Empty response stream`; otherwise it resolves to a synthesized unary
response with a single candidate holding the merged parts. -/
def collectGeminiStreamAsResponse (chunks : List (List SseLine)) :
    Except String GeminiResponseM :=
  let receivedData := !chunks.isEmpty
  let r := chunks.flatten.foldl collectStep ([], none, none)
  if !receivedData then Except.error "Empty response stream"
  else
    Except.ok {
      candidates := [{
        content := some { role := some "model", parts := r.1 }
        finishReason := r.2.1
        index := none }]
      usageMetadata := r.2.2 }

/-- `ProxyService.generateInternalWithStreamFallback` (lines 672-707), with
the unary result and the fallback stream's events supplied: a usable direct
response is returned as-is, otherwise the single streaming call is
aggregated. -/
def generateInternalWithStreamFallback (direct : GeminiResponseM)
    (streamChunks : List (List SseLine)) : Except String GeminiResponseM :=
  if hasUsableGeminiCandidate direct then Except.ok direct
  else collectGeminiStreamAsResponse streamChunks

/-- The parts a single stream line contributes (first candidate only). -/
def partsOfLine (l : SseLine) : List GeminiPartM :=
  match l with
  | SseLine.dataLine (some parsed) =>
    match parsed.candidates.head? with
    | some c =>
      match c.content with
      | some ct => ct.parts
      | none => []
    | none => []
  | _ => []

/-- The truthy finish reason a single stream line carries, if any. -/
def finishReasonOfLine (l : SseLine) : Option String :=
  match l with
  | SseLine.dataLine (some parsed) =>
    match parsed.candidates.head? with
    | some c =>
      match c.finishReason with
      | some fr => if fr ≠ "" then some fr else none
      | none => none
    | none => none
  | _ => none

/-- The usage metadata a single stream line carries, if any. -/
def usageOfLine (l : SseLine) : Option UsageMetadataM :=
  match l with
  | SseLine.dataLine (some parsed) => parsed.usageMetadata
  | _ => none

/-- Specification-level accumulation: all parts of all parsed data frames,
in stream order. -/
def streamDataParts : List SseLine → List GeminiPartM
  | [] => []
  | l :: ls => partsOfLine l ++ streamDataParts ls

/-- Specification-level "last finishReason of the stream": the latest line
carrying a truthy finish reason wins. -/
def streamLastFinishReason : List SseLine → Option String
  | [] => none
  | l :: ls => Option.or (streamLastFinishReason ls) (finishReasonOfLine l)

/-- Specification-level "last usageMetadata of the stream". -/
def streamLastUsage : List SseLine → Option UsageMetadataM
  | [] => none
  | l :: ls => Option.or (streamLastUsage ls) (usageOfLine l)

/-! ## OpenAI SSE stream shaping (`processStreamResponse`, lines 786-965)

Emissions are modelled as structured values: `OpenAIEmit.chunk c` stands for
the frame `data: ${JSON.stringify(c)}\n\n` and `OpenAIEmit.done` for
`data: [DONE]\n\n`.  `uuidFor name` stands in for the random
`${name}-${uuidv4()}` default tool-call id. -/

def strToUpper (s : String) : String :=
  String.mk (s.data.map Char.toUpper)

/-- `ProxyService.mapGeminiFinishReasonToOpenAIFinishReason`
(lines 1228-1245); a falsy (absent or empty) finish reason maps to null. -/
def mapGeminiFinishReasonToOpenAIFinishReason (finishReason : Option String) : Option String :=
  match finishReason with
  | none => none
  | some fr =>
    if fr = "" then none
    else
      let normalized := strToUpper fr
      if normalized = "STOP" then some "stop"
      else if normalized = "MAX_TOKENS" then some "length"
      else if normalized = "SAFETY" || normalized = "RECITATION" then some "content_filter"
      else some (strToLower fr)

structure ToolCallFunctionM where
  name : String
  arguments : String
deriving Repr, DecidableEq

structure ToolCallM where
  index : Nat
  id : String
  type : String
  function : ToolCallFunctionM
deriving Repr, DecidableEq

/-- The `delta` object of an emitted `chat.completion.chunk`; each source
literal populates exactly one field (or none, for the finish chunk). -/
inductive OpenAIDeltaM where
  | empty
  | contentDelta (content : String)
  | reasoningDelta (reasoning_content : String)
  | toolCallsDelta (tool_calls : List ToolCallM)
deriving Repr, DecidableEq

structure OpenAIChoiceM where
  index : Nat
  delta : OpenAIDeltaM
  finish_reason : Option String
deriving Repr, DecidableEq

structure OpenAIChunkM where
  id : String
  object : String
  created : Nat
  model : String
  choices : List OpenAIChoiceM
deriving Repr, DecidableEq

inductive OpenAIEmit where
  | chunk (c : OpenAIChunkM)
  | done
deriving Repr, DecidableEq

structure StreamProcState where
  emits : List OpenAIEmit
  hasEmittedChunk : Bool
  hasSentDone : Bool
  completed : Bool
deriving Repr, DecidableEq

/-- `pushChunk`: records `hasEmittedChunk` and forwards to the subscriber
(RxJS drops `next` calls after `complete`). -/
def pushChunk (s : StreamProcState) (c : OpenAIChunkM) : StreamProcState :=
  { s with
    hasEmittedChunk := true
    emits := if s.completed then s.emits else s.emits ++ [OpenAIEmit.chunk c] }

def mkOpenAIChunk (streamId : String) (created : Nat) (model : String)
    (delta : OpenAIDeltaM) (finish_reason : Option String) : OpenAIChunkM :=
  { id := streamId
    object := "chat.completion.chunk"
    created := created
    model := model
    choices := [{ index := 0, delta := delta, finish_reason := finish_reason }] }

/-- The per-part emission chain of `processStreamResponse` (lines 821-907):
thought text, then function calls, then inline images, then plain text; the
JavaScript truthiness of `part.text` and of the optional id/mime/data fields
is modelled by `strTruthy`. -/
def processPart (streamId : String) (created : Nat) (model : String)
    (uuidFor : String → String) (s : StreamProcState) (part : GeminiPartM) :
    StreamProcState :=
  if part.thought && strTruthy part.text then
    pushChunk s (mkOpenAIChunk streamId created model
      (OpenAIDeltaM.reasoningDelta (part.text.getD "")) none)
  else
    match part.functionCall with
    | some fc =>
      pushChunk s (mkOpenAIChunk streamId created model
        (OpenAIDeltaM.toolCallsDelta [{
          index := 0
          id := match fc.id with
            | some i => if i ≠ "" then i else fc.name ++ "-" ++ uuidFor fc.name
            | none => fc.name ++ "-" ++ uuidFor fc.name
          type := "function"
          function := {
            name := fc.name
            arguments := jsonStringify (fc.args.getD (JsonM.obj [])) } }]) none)
    | none =>
      match part.inlineData with
      | some idata =>
        let mimeType := match idata.mimeType with
          | some m => if m ≠ "" then m else "image/jpeg"
          | none => "image/jpeg"
        let d := match idata.data with
          | some v => v
          | none => ""
        pushChunk s (mkOpenAIChunk streamId created model
          (OpenAIDeltaM.contentDelta
            ("\n\n![Generated Image](data:" ++ mimeType ++ ";base64," ++ d ++ ")\n\n")) none)
      | none =>
        if strTruthy part.text then
          pushChunk s (mkOpenAIChunk streamId created model
            (OpenAIDeltaM.contentDelta (part.text.getD "")) none)
        else s

/-- The parts of one candidate (`candidate?.content?.parts || []`). -/
def candidateParts (c : GeminiCandidateM) : List GeminiPartM :=
  match c.content with
  | some ct => ct.parts
  | none => []

/-- The tail of a frame that carries a truthy `finishReason`: the finish
chunk with empty delta and mapped finish reason, the `[DONE]` sentinel, and
completion. -/
def processFinish (streamId : String) (created : Nat) (model : String)
    (s : StreamProcState) (fr : String) : StreamProcState :=
  let s := pushChunk s (mkOpenAIChunk streamId created model OpenAIDeltaM.empty
    (mapGeminiFinishReasonToOpenAIFinishReason (some fr)))
  let s := { s with
    emits := if s.completed then s.emits else s.emits ++ [OpenAIEmit.done]
    hasSentDone := true }
  { s with completed := true }

/-- Processing of one parsed `data:` frame: every part of the first
candidate in order, then — when the candidate carries a truthy
`finishReason` — the finish tail. -/
def processDataLine (streamId : String) (created : Nat) (model : String)
    (uuidFor : String → String) (s : StreamProcState) (parsed : GeminiResponseM) :
    StreamProcState :=
  match parsed.candidates.head? with
  | some c =>
    match c.finishReason with
    | some fr =>
      if fr ≠ "" then
        processFinish streamId created model
          ((candidateParts c).foldl (processPart streamId created model uuidFor) s) fr
      else (candidateParts c).foldl (processPart streamId created model uuidFor) s
    | none => (candidateParts c).foldl (processPart streamId created model uuidFor) s
  | none => s

def processLine (streamId : String) (created : Nat) (model : String)
    (uuidFor : String → String) (s : StreamProcState) (l : SseLine) : StreamProcState :=
  match l with
  | SseLine.dataLine (some parsed) => processDataLine streamId created model uuidFor s parsed
  | _ => s

/-- `ProxyService.processStreamResponse` with the upstream stream given as
its `data` events followed by `end`: fold the frames, then run the `end`
handler (lines 936-957), which emits one empty-content chunk if nothing was
emitted and a `[DONE]` sentinel if none was sent. -/
def processStreamResponse (streamId : String) (created : Nat) (model : String)
    (uuidFor : String → String) (chunks : List (List SseLine)) : List OpenAIEmit :=
  let s := chunks.flatten.foldl (processLine streamId created model uuidFor)
    ⟨[], false, false, false⟩
  let s :=
    if !s.hasEmittedChunk then
      pushChunk s (mkOpenAIChunk streamId created model (OpenAIDeltaM.contentDelta "") none)
    else s
  let s :=
    if !s.hasSentDone then
      { s with
        emits := if s.completed then s.emits else s.emits ++ [OpenAIEmit.done]
        hasSentDone := true }
    else s
  s.emits

/-! ## Error-family predicates of the orchestrator (lines 1473-1500) -/

def isProjectLicenseError (errorMessage : String) : Bool :=
  let msg := strToLower errorMessage
  kwIn msg "#3501" || (kwIn msg "google cloud project" && kwIn msg "code assist license")

def isProjectNotFoundError (errorMessage : String) : Bool :=
  let msg := strToLower errorMessage
  (kwIn msg "resource projects/" && kwIn msg "could not be found") ||
    (kwIn msg "project" && kwIn msg "not found")

def isProjectContextError (errorMessage : String) : Bool :=
  isProjectLicenseError errorMessage || isProjectNotFoundError errorMessage

def isQuotaExhaustedError (errorMessage : String) : Bool :=
  let msg := strToLower errorMessage
  kwIn msg "resource has been exhausted" || kwIn msg "resource_exhausted" || kwIn msg "quota"

/-! ## Gemini-internal request construction -/

/-- Opaque bag of generation settings: the mappers copy `generationConfig`
verbatim and never inspect it. -/
structure GenerationConfigM where
  fields : List (String × Int)
deriving Repr, DecidableEq

structure SysPartM where
  text : Option String
deriving Repr, DecidableEq

structure SysTextPartM where
  text : String
deriving Repr, DecidableEq

structure SystemInstructionM where
  parts : List SysPartM
deriving Repr, DecidableEq

structure SystemInstructionOutM where
  parts : List SysTextPartM
deriving Repr, DecidableEq

/-- A public Gemini `generateContent` request body. -/
structure GeminiRequestM where
  contents : List GeminiContentM
  generationConfig : Option GenerationConfigM
  systemInstruction : Option SystemInstructionM

structure GeminiInternalBodyM where
  contents : List GeminiContentM
  generationConfig : Option GenerationConfigM
  systemInstruction : Option SystemInstructionOutM

structure GeminiInternalRequestM where
  project : String
  requestId : String
  request : GeminiInternalBodyM
  model : String
  userAgent : String
  requestType : String

def defaultRequestUserAgent : String := "antigravity/1.11.9 windows/amd64"

/-- `ProxyService.toInternalGeminiRequest` (lines 1069-1081): text-only
system-instruction parts survive. -/
def toInternalGeminiRequest (request : GeminiRequestM) : GeminiInternalBodyM :=
  { contents := request.contents
    generationConfig := request.generationConfig
    systemInstruction :=
      match request.systemInstruction with
      | some si => some { parts := si.parts.filterMap (fun p => p.text.map ({ text := · })) }
      | none => none }

/-- `ProxyService.createGeminiInternalRequest` (lines 476-490); the random
`uuidv4()` request id and the `PROXY_REQUEST_USER_AGENT` environment
override are parameters. -/
def createGeminiInternalRequest (model : String) (request : GeminiRequestM)
    (projectId : String) (requestType : String) (requestId : String)
    (envUserAgent : Option String) : GeminiInternalRequestM :=
  { project := projectId
    requestId := requestId
    request := toInternalGeminiRequest request
    model := model
    userAgent := envUserAgent.getD defaultRequestUserAgent
    requestType := requestType }

/-! ## Claude-path request/response plumbing

`transformClaudeRequestIn` and `transformResponse` live in
`src/lib/antigravity/ClaudeRequestMapper.ts` / `ClaudeResponseMapper.ts`,
which are not part of the provided sources; the envelope of the former is
modelled from the spec and the latter is universally quantified. -/

/-- A Claude request as the orchestrator builds it (`toClaudeRequest` /
`convertOpenAIToClaude`); the message/tool payload is never inspected by the
claims under verification, so it is carried as an opaque `α`. -/
structure ClaudeRequestM (α : Type) where
  model : String
  stream : Bool
  payload : α
deriving Repr, DecidableEq

/-- The Gemini-internal envelope produced for the Claude path; the inner
`request` translation is carried opaquely. -/
structure ClaudeMappedInternalRequest (α : Type) where
  project : String
  requestId : String
  request : α
  model : String
  userAgent : String
  requestType : String
deriving Repr, DecidableEq

/-- Modelled from the spec: `transformClaudeRequestIn(claudeReq, projectId)`
(missing source `src/lib/antigravity/ClaudeRequestMapper.ts`); per §4.3 it
"produces { project, requestId: new UUID, request: {contents,
generationConfig, systemInstruction?}, model, userAgent, requestType:
'generate-content' }".  `project` is the passed project id and `model` the
Claude request's model; the inner `request` translation is carried as the
opaque payload, and the random UUID and user agent are parameters. -/
def transformClaudeRequestIn {α : Type} (claudeReq : ClaudeRequestM α) (projectId : String)
    (requestId userAgent : String) : ClaudeMappedInternalRequest α :=
  { project := projectId
    requestId := requestId
    request := claudeReq.payload
    model := claudeReq.model
    userAgent := userAgent
    requestType := "generate-content" }

structure ClaudeUsageM where
  input_tokens : Option Nat
  output_tokens : Option Nat
  cache_creation_input_tokens : Option Nat
  cache_read_input_tokens : Option Nat
deriving Repr, DecidableEq

/-- A Claude response (output of the missing `transformResponse`); content
blocks are carried opaquely as `γ`. -/
structure ClaudeResponseM (γ : Type) where
  id : String
  type : String
  role : String
  model : String
  content : γ
  stop_reason : Option String
  stop_sequence : Option String
  usage : Option ClaudeUsageM
deriving Repr, DecidableEq

structure AnthropicUsageM where
  input_tokens : Nat
  output_tokens : Nat
  cache_creation_input_tokens : Option Nat
  cache_read_input_tokens : Option Nat
deriving Repr, DecidableEq

structure AnthropicChatResponseM (γ : Type) where
  id : String
  type : String
  role : String
  model : String
  content : γ
  stop_reason : Option String
  stop_sequence : Option String
  usage : AnthropicUsageM
deriving Repr, DecidableEq

/-- `ProxyService.toAnthropicChatResponse` (lines 1051-1067). -/
def toAnthropicChatResponse {γ : Type} (response : ClaudeResponseM γ) :
    AnthropicChatResponseM γ :=
  { id := response.id
    type := response.type
    role := response.role
    model := response.model
    content := response.content
    stop_reason := response.stop_reason
    stop_sequence := response.stop_sequence
    usage := {
      input_tokens := (response.usage.bind (fun u => u.input_tokens)).getD 0
      output_tokens := (response.usage.bind (fun u => u.output_tokens)).getD 0
      cache_creation_input_tokens := response.usage.bind (fun u => u.cache_creation_input_tokens)
      cache_read_input_tokens := response.usage.bind (fun u => u.cache_read_input_tokens) } }

/-- One non-stream attempt of `handleAnthropicMessages` (the try/catch body,
lines 77-178, for `request.stream = false`): the primary upstream call, the
project-context inline retry with an empty project, and the quota-exhaustion
inline retry that downgrades the model to `gemini-2.5-flash` on the same
account while restoring the client-visible `model` field.  `callUnary`
abstracts `generateInternalWithStreamFallback` on the selected account's
credentials, and `transformResp` the missing Gemini-to-Claude
`transformResponse`. -/
def anthropicAttemptNonStream {α γ : Type}
    (callUnary : ClaudeMappedInternalRequest α → Except String GeminiResponseM)
    (transformResp : GeminiResponseM → ClaudeResponseM γ)
    (request : ClaudeRequestM α) (project_id : Option String)
    (requestId userAgent : String) : Except String (AnthropicChatResponseM γ) :=
  let projectId := project_id.getD ""
  let geminiBody := transformClaudeRequestIn request projectId requestId userAgent
  match callUnary geminiBody with
  | Except.ok response => Except.ok (toAnthropicChatResponse (transformResp response))
  | Except.error e0 =>
    let afterProject : Except String (AnthropicChatResponseM γ) ⊕ String :=
      if isProjectContextError e0 then
        match callUnary (transformClaudeRequestIn request "" requestId userAgent) with
        | Except.ok response =>
          Sum.inl (Except.ok (toAnthropicChatResponse (transformResp response)))
        | Except.error fallbackError => Sum.inr fallbackError
      else Sum.inr e0
    match afterProject with
    | Sum.inl r => r
    | Sum.inr e1 =>
      if isQuotaExhaustedError e1 then
        let downgradedRequest := { request with model := "gemini-2.5-flash" }
        let downgradedBody :=
          transformClaudeRequestIn downgradedRequest (project_id.getD "") requestId userAgent
        match callUnary downgradedBody with
        | Except.ok response =>
          let transformed := toAnthropicChatResponse (transformResp response)
          Except.ok { transformed with model := request.model }
        | Except.error downgradeError => Except.error downgradeError
      else Except.error e1

/-! # Theorems -/

/-! ## Claim C2: upstream error taxonomy -/

/-- C2, counterexample: at the concrete message "timeout after rate limit"
the code's classifier marks the account rate-limited (the message contains
the phrase "rate limit" with a space), while the spec's taxonomy — whose
rate-limit rule lists only `429 / resource_exhausted / quota / rate_limit` —
lands in the transient rule and prescribes no marking.  The claim as stated
is therefore false at this input. -/
theorem c2_taxonomy_counterexample :
    classifyUpstreamError "timeout after rate limit" ≠
        specClassifyUpstreamError "timeout after rate limit" ∧
      classifyUpstreamError "timeout after rate limit" = ⟨true, false, true⟩ ∧
      specClassifyUpstreamError "timeout after rate limit" = ⟨true, false, false⟩ :=
  ⟨by decide, by decide, by decide⟩

/-- C2, amended: `classifyUpstreamError` decides exactly per the spec's
ordered taxonomy once the transient rule is amended to keep the rate-limit
marking when the message also contains the phrase "rate limit" (with a
space): forbidden keywords give retry + mark-forbidden, the rate-limit
keyword set gives retry + mark-rate-limited, and the transient statuses and
transport keywords give retry, marking rate-limited only on that extra
phrase. -/
theorem c2_classifier_matches_amended_taxonomy (msg : String) :
    classifyUpstreamError msg = specClassifyUpstreamErrorAmended msg := by
  simp only [classifyUpstreamError, specClassifyUpstreamErrorAmended]
  generalize strToLower msg = m
  generalize (kwIn m "401" || kwIn m "unauthorized" || kwIn m "invalid_grant" ||
      kwIn m "403" || kwIn m "permission_denied" || kwIn m "forbidden") = f
  generalize kwIn m "408" = b1
  generalize kwIn m "429" = b2
  generalize kwIn m "500" = b3
  generalize kwIn m "502" = b4
  generalize kwIn m "503" = b5
  generalize kwIn m "504" = b6
  generalize kwIn m "resource_exhausted" = c1
  generalize kwIn m "quota" = c2
  generalize kwIn m "rate_limit" = c3
  generalize kwIn m "timeout" = c4
  generalize kwIn m "socket hang up" = c5
  generalize kwIn m "empty response stream" = c6
  generalize kwIn m "connection reset" = c7
  generalize kwIn m "rate limit" = c8
  revert f b1 b2 b3 b4 b5 b6 c1 c2 c3 c4 c5 c6 c7 c8
  decide

/-! ## Claim C10: forbidden classification wins on overlapping keywords -/

/-- C10: when an error message contains both a forbidden keyword and a
rate-limit keyword, the forbidden classification wins — the classifier
returns `markAsForbidden = true` and `markAsRateLimited = false` — and the
orchestrator's marking step therefore puts the account into the 30-minute
forbidden cooldown (never the 5-minute rate-limit one). -/
theorem c10_forbidden_wins_over_rate_limit (msg : String) (st : PoolState)
    (accountId : String) (nowMs : Nat)
    (hf : kwIn (strToLower msg) "401" = true ∨ kwIn (strToLower msg) "unauthorized" = true ∨
      kwIn (strToLower msg) "invalid_grant" = true ∨ kwIn (strToLower msg) "403" = true ∨
      kwIn (strToLower msg) "permission_denied" = true ∨
      kwIn (strToLower msg) "forbidden" = true)
    (_hr : kwIn (strToLower msg) "429" = true ∨
      kwIn (strToLower msg) "resource_exhausted" = true ∨
      kwIn (strToLower msg) "quota" = true ∨ kwIn (strToLower msg) "rate_limit" = true ∨
      kwIn (strToLower msg) "rate limit" = true) :
    classifyUpstreamError msg = ⟨true, true, false⟩ ∧
      forbiddenCooldownMs = 30 * 60 * 1000 ∧
      rateLimitCooldownMs = 5 * 60 * 1000 ∧
      (applyRetryMarking st (classifyUpstreamError msg) accountId nowMs).cooldowns
          ((resolveAccountId st.tokens accountId).getD accountId) =
        some (nowMs + forbiddenCooldownMs) := by
  have hforb : (kwIn (strToLower msg) "401" || kwIn (strToLower msg) "unauthorized" ||
      kwIn (strToLower msg) "invalid_grant" || kwIn (strToLower msg) "403" ||
      kwIn (strToLower msg) "permission_denied" ||
      kwIn (strToLower msg) "forbidden") = true := by
    rcases hf with h | h | h | h | h | h <;> simp [h]
  have hcls : classifyUpstreamError msg = ⟨true, true, false⟩ := by
    simp [classifyUpstreamError, hforb]
  refine ⟨hcls, rfl, rfl, ?_⟩
  rw [hcls]
  simp [applyRetryMarking, markAsForbidden, markInCooldown, fnSet]

/-- C10 witness at the concrete message "403 quota". -/
theorem c10_witness :
    classifyUpstreamError "403 quota" = ⟨true, true, false⟩ ∧
      forbiddenCooldownMs = 30 * 60 * 1000 ∧
      rateLimitCooldownMs = 5 * 60 * 1000 ∧
      (applyRetryMarking ⟨0, [], fun _ => none, fun _ => none⟩
          (classifyUpstreamError "403 quota") "acc-1" 7).cooldowns
          ((resolveAccountId ([] : List (String × TokenData)) "acc-1").getD "acc-1") =
        some (7 + forbiddenCooldownMs) :=
  c10_forbidden_wins_over_rate_limit "403 quota" ⟨0, [], fun _ => none, fun _ => none⟩
    "acc-1" 7 (Or.inr (Or.inr (Or.inr (Or.inl (by decide)))))
    (Or.inr (Or.inr (Or.inl (by decide))))

/-! ## Claim C5: synthetic project ids are discarded -/

/-- C5: a selected token whose `project_id` matches `^cloud-code-\d+$`
(case-insensitive, after trimming) loses it during finalization — the
returned account carries no project id — so every Gemini-internal request
body the orchestrator subsequently builds for that account (via
`createGeminiInternalRequest`, or via `transformClaudeRequestIn` on the
OpenAI/Anthropic paths, both receiving `token.project_id ?? ''`) carries
`project = ""`. -/
theorem c5_synthetic_project_id_discarded
    (refresh : String → Option RefreshResult) (st : PoolState) (accountId : String)
    (td : TokenData) (nowMs : Nat) (sessionKey : Option String) (p : String)
    (hp : td.project_id = some p) (hsyn : isSyntheticProjectId p = true) :
    ((finalizeSelectedToken refresh st accountId td nowMs sessionKey).1).token.project_id =
        none ∧
      (∀ (model : String) (greq : GeminiRequestM) (requestType requestId : String)
        (envUA : Option String),
        (createGeminiInternalRequest model greq
          (((finalizeSelectedToken refresh st accountId td nowMs
            sessionKey).1).token.project_id.getD "")
          requestType requestId envUA).project = "") ∧
      (∀ (α : Type) (creq : ClaudeRequestM α) (requestId userAgent : String),
        (transformClaudeRequestIn creq
          (((finalizeSelectedToken refresh st accountId td nowMs
            sessionKey).1).token.project_id.getD "")
          requestId userAgent).project = "") := by
  have hsan : sanitizeProjectId td.project_id = none := by
    rw [hp]
    simp [sanitizeProjectId, hsyn]
  have hnone : ((finalizeSelectedToken refresh st accountId td nowMs
      sessionKey).1).token.project_id = none := by
    simp only [finalizeSelectedToken]
    split
    · split <;> simp_all [sanitizeProjectId, hsyn]
    · simpa using hsan
  refine ⟨hnone, ?_, ?_⟩
  · intro model greq requestType requestId envUA
    rw [hnone]
    rfl
  · intro α creq requestId userAgent
    rw [hnone]
    rfl

/-- C5 witness: a concrete token with `project_id = "cloud-code-123"`. -/
theorem c5_witness :
    isSyntheticProjectId "cloud-code-123" = true ∧
      ((finalizeSelectedToken (fun _ => none) ⟨0, [], fun _ => none, fun _ => none⟩ "a"
          ⟨"e", "a", "at", "rt", "Bearer", 3600, 1000000000, some "cloud-code-123", none, none⟩
          0 none).1).token.project_id = none ∧
      (createGeminiInternalRequest "gemini-3-pro"
          (⟨[], none, none⟩ : GeminiRequestM)
          (((finalizeSelectedToken (fun _ => none) ⟨0, [], fun _ => none, fun _ => none⟩ "a"
            ⟨"e", "a", "at", "rt", "Bearer", 3600, 1000000000, some "cloud-code-123", none,
              none⟩ 0 none).1).token.project_id.getD "")
          "generate-content" "rid" none).project = "" :=
  ⟨by decide,
    (c5_synthetic_project_id_discarded (fun _ => none)
      ⟨0, [], fun _ => none, fun _ => none⟩ "a"
      ⟨"e", "a", "at", "rt", "Bearer", 3600, 1000000000, some "cloud-code-123", none, none⟩
      0 none "cloud-code-123" rfl (by decide)).1,
    (c5_synthetic_project_id_discarded (fun _ => none)
      ⟨0, [], fun _ => none, fun _ => none⟩ "a"
      ⟨"e", "a", "at", "rt", "Bearer", 3600, 1000000000, some "cloud-code-123", none, none⟩
      0 none "cloud-code-123" rfl (by decide)).2.1 "gemini-3-pro" ⟨[], none, none⟩
      "generate-content" "rid" none⟩

/-! ## Claim C8: Anthropic quota downgrade -/

/-- C8: when a non-stream Anthropic attempt fails with a quota-exhaustion
message (and the error is not a project-context one, which is handled by an
earlier inline fallback), the orchestrator retries inline on the same
account with the model replaced by `gemini-2.5-flash` — the downgraded
upstream body carries that model — and the response handed back preserves
the originally requested model string in its `model` field. -/
theorem c8_quota_downgrade_preserves_model {α γ : Type}
    (callUnary : ClaudeMappedInternalRequest α → Except String GeminiResponseM)
    (transformResp : GeminiResponseM → ClaudeResponseM γ)
    (request : ClaudeRequestM α) (project_id : Option String)
    (requestId userAgent : String) (e : String) (resp : GeminiResponseM)
    (hprimary : callUnary (transformClaudeRequestIn request (project_id.getD "")
      requestId userAgent) = Except.error e)
    (hnotproj : isProjectContextError e = false)
    (hquota : isQuotaExhaustedError e = true)
    (hdowngrade : callUnary (transformClaudeRequestIn
      { request with model := "gemini-2.5-flash" } (project_id.getD "")
      requestId userAgent) = Except.ok resp) :
    (transformClaudeRequestIn { request with model := "gemini-2.5-flash" }
        (project_id.getD "") requestId userAgent).model = "gemini-2.5-flash" ∧
      anthropicAttemptNonStream callUnary transformResp request project_id
          requestId userAgent =
        Except.ok { toAnthropicChatResponse (transformResp resp) with
          model := request.model } ∧
      ∀ out, anthropicAttemptNonStream callUnary transformResp request project_id
          requestId userAgent = Except.ok out → out.model = request.model := by
  have hrun : anthropicAttemptNonStream callUnary transformResp request project_id
      requestId userAgent =
      Except.ok { toAnthropicChatResponse (transformResp resp) with
        model := request.model } := by
    simp only [anthropicAttemptNonStream]
    rw [hprimary]
    simp only [hnotproj, Bool.false_eq_true, if_false]
    simp only [hquota, if_true]
    rw [hdowngrade]
  refine ⟨rfl, hrun, ?_⟩
  intro out hout
  rw [hrun] at hout
  cases hout
  rfl

/-- C8 witness: a concrete environment where the primary call fails with
"429 quota exceeded" and the `gemini-2.5-flash` retry succeeds. -/
theorem c8_witness :
    isQuotaExhaustedError "429 quota exceeded" = true ∧
      anthropicAttemptNonStream (α := Unit) (γ := Unit)
          (fun b => if b.model = "gemini-2.5-flash"
            then Except.ok ⟨[], none⟩
            else Except.error "429 quota exceeded")
          (fun _ => ⟨"id0", "message", "assistant", "m0", (), some "end_turn", none, none⟩)
          ⟨"claude-sonnet-4-5", false, ()⟩ (some "proj-x") "rid" "ua" =
        Except.ok { toAnthropicChatResponse
          ((fun (_ : GeminiResponseM) =>
            (⟨"id0", "message", "assistant", "m0", (), some "end_turn", none, none⟩ :
              ClaudeResponseM Unit)) ⟨[], none⟩) with model := "claude-sonnet-4-5" } :=
  ⟨by decide,
    (c8_quota_downgrade_preserves_model
      (fun b => if b.model = "gemini-2.5-flash"
        then Except.ok ⟨[], none⟩
        else Except.error "429 quota exceeded")
      (fun _ => ⟨"id0", "message", "assistant", "m0", (), some "end_turn", none, none⟩)
      ⟨"claude-sonnet-4-5", false, ()⟩ (some "proj-x") "rid" "ua" "429 quota exceeded"
      ⟨[], none⟩ rfl (by decide) (by decide) rfl).2.1⟩

/-! ## Claim C9: OpenAI SSE stream shape -/

/-- If a `processPart` step leaves `hasEmittedChunk` false, the state is
still the initial one (every branch except the no-op pushes a chunk, which
sets the flag). -/
theorem processPart_untouched (streamId : String) (created : Nat) (model : String)
    (uuidFor : String → String) (s : StreamProcState) (part : GeminiPartM)
    (h : s.hasEmittedChunk = false → s = ⟨[], false, false, false⟩) :
    (processPart streamId created model uuidFor s part).hasEmittedChunk = false →
      processPart streamId created model uuidFor s part = ⟨[], false, false, false⟩ := by
  unfold processPart
  split
  · simp [pushChunk]
  · split
    · simp [pushChunk]
    · split
      · simp [pushChunk]
      · split
        · simp [pushChunk]
        · exact h

/-- The part-fold preserves the untouched-state invariant. -/
theorem foldl_processPart_untouched (streamId : String) (created : Nat) (model : String)
    (uuidFor : String → String) (parts : List GeminiPartM) : ∀ (s : StreamProcState),
    (s.hasEmittedChunk = false → s = ⟨[], false, false, false⟩) →
    ((parts.foldl (processPart streamId created model uuidFor) s).hasEmittedChunk = false →
      parts.foldl (processPart streamId created model uuidFor) s =
        ⟨[], false, false, false⟩) := by
  induction parts with
  | nil => intro s h; exact h
  | cons p ps ih =>
    intro s h
    exact ih _ (processPart_untouched streamId created model uuidFor s p h)

/-- A whole stream line preserves the untouched-state invariant. -/
theorem processLine_untouched (streamId : String) (created : Nat) (model : String)
    (uuidFor : String → String) (s : StreamProcState) (l : SseLine)
    (h : s.hasEmittedChunk = false → s = ⟨[], false, false, false⟩) :
    (processLine streamId created model uuidFor s l).hasEmittedChunk = false →
      processLine streamId created model uuidFor s l = ⟨[], false, false, false⟩ := by
  unfold processLine
  split
  · unfold processDataLine
    split
    · split
      · split
        · simp [processFinish, pushChunk]
        · exact foldl_processPart_untouched streamId created model uuidFor _ s h
      · exact foldl_processPart_untouched streamId created model uuidFor _ s h
    · exact h
  · exact h

/-- The line-fold preserves the untouched-state invariant. -/
theorem foldl_processLine_untouched (streamId : String) (created : Nat) (model : String)
    (uuidFor : String → String) (lines : List SseLine) : ∀ (s : StreamProcState),
    (s.hasEmittedChunk = false → s = ⟨[], false, false, false⟩) →
    ((lines.foldl (processLine streamId created model uuidFor) s).hasEmittedChunk = false →
      lines.foldl (processLine streamId created model uuidFor) s =
        ⟨[], false, false, false⟩) := by
  induction lines with
  | nil => intro s h; exact h
  | cons l ls ih =>
    intro s h
    exact ih _ (processLine_untouched streamId created model uuidFor s l h)

/-- C9: on the single-frame upstream stream with parts
`[{thought:true,text:"reasoning"}, {functionCall:{id:"fc1",name:"search",
args:{q:"x"}}}, {text:"answer"}]` and `finishReason:"STOP"`, the emitted
chunks appear in order — reasoning delta, tool-call delta (name `search`,
arguments `{"q":"x"}`), content delta, a final empty delta with
`finish_reason = "stop"` — followed by a single `[DONE]` sentinel; and any
upstream stream whose processing emits no content yields exactly one
empty-content chunk followed by a single `[DONE]`. -/
theorem c9_openai_stream_shape :
    (∀ (streamId : String) (created : Nat) (model : String) (uuidFor : String → String),
      processStreamResponse streamId created model uuidFor
        [[SseLine.dataLine (some ⟨[⟨some ⟨none,
          [⟨true, some "reasoning", none, none⟩,
            ⟨false, none, some ⟨some "fc1", "search",
              some (JsonM.obj [("q", JsonM.str "x")])⟩, none⟩,
            ⟨false, some "answer", none, none⟩]⟩, some "STOP", none⟩], none⟩)]] =
      [OpenAIEmit.chunk (mkOpenAIChunk streamId created model
          (OpenAIDeltaM.reasoningDelta "reasoning") none),
        OpenAIEmit.chunk (mkOpenAIChunk streamId created model
          (OpenAIDeltaM.toolCallsDelta
            [⟨0, "fc1", "function", ⟨"search", "\x7b\"q\":\"x\"\x7d"⟩⟩]) none),
        OpenAIEmit.chunk (mkOpenAIChunk streamId created model
          (OpenAIDeltaM.contentDelta "answer") none),
        OpenAIEmit.chunk (mkOpenAIChunk streamId created model
          OpenAIDeltaM.empty (some "stop")),
        OpenAIEmit.done]) ∧
    (∀ (streamId : String) (created : Nat) (model : String) (uuidFor : String → String)
      (chunks : List (List SseLine)),
      (chunks.flatten.foldl (processLine streamId created model uuidFor)
        ⟨[], false, false, false⟩).hasEmittedChunk = false →
      processStreamResponse streamId created model uuidFor chunks =
        [OpenAIEmit.chunk (mkOpenAIChunk streamId created model
          (OpenAIDeltaM.contentDelta "") none),
          OpenAIEmit.done]) := by
  constructor
  · intro streamId created model uuidFor
    rfl
  · intro streamId created model uuidFor chunks h
    have hs := foldl_processLine_untouched streamId created model uuidFor chunks.flatten
      ⟨[], false, false, false⟩ (fun _ => rfl) h
    simp only [processStreamResponse]
    rw [hs]
    rfl

/-- C9 witness for the empty-stream clause: a stream that ends with no data
events. -/
theorem c9_witness :
    processStreamResponse "sid" 5 "gpt-4o" (fun _ => "u") [] =
      [OpenAIEmit.chunk (mkOpenAIChunk "sid" 5 "gpt-4o" (OpenAIDeltaM.contentDelta "") none),
        OpenAIEmit.done] :=
  c9_openai_stream_shape.2 "sid" 5 "gpt-4o" (fun _ => "u") [] rfl

/-! ## Claim C7: empty unary response falls back to one streaming call -/

theorem optOr_assoc {β : Type} (a b c : Option β) :
    Option.or (Option.or a b) c = Option.or a (Option.or b c) := by
  cases a <;> rfl

theorem optOr_none {β : Type} (a : Option β) : Option.or a none = a := by
  cases a <;> rfl

/-- One step of the stream-aggregation fold, characterised per line: append
that line's parts, prefer that line's truthy finish reason and usage over
the accumulator. -/
theorem collectStep_eq (acc : List GeminiPartM × Option String × Option UsageMetadataM)
    (l : SseLine) :
    collectStep acc l = (acc.1 ++ partsOfLine l,
      Option.or (finishReasonOfLine l) acc.2.1,
      Option.or (usageOfLine l) acc.2.2) := by
  obtain ⟨ps, fr0, um0⟩ := acc
  cases l with
  | doneLine => simp [collectStep, partsOfLine, finishReasonOfLine, usageOfLine]
  | otherLine => simp [collectStep, partsOfLine, finishReasonOfLine, usageOfLine]
  | dataLine p =>
    cases p with
    | none => simp [collectStep, partsOfLine, finishReasonOfLine, usageOfLine]
    | some parsed =>
      obtain ⟨cands, um⟩ := parsed
      simp only [collectStep, partsOfLine, finishReasonOfLine, usageOfLine]
      cases cands.head? with
      | none => cases um <;> simp
      | some c =>
        obtain ⟨cct, cfr, cidx⟩ := c
        cases cct with
        | none =>
          cases cfr with
          | none => cases um <;> simp
          | some fr => cases um <;> (by_cases hfe : fr = "" <;> simp [hfe])
        | some ct =>
          cases cfr with
          | none => cases um <;> simp
          | some fr => cases um <;> (by_cases hfe : fr = "" <;> simp [hfe])

/-- The aggregation fold computes the concatenation of all frame parts and
the last truthy finish reason / last usage metadata. -/
theorem collect_foldl (lines : List SseLine) :
    ∀ acc, lines.foldl collectStep acc =
      (acc.1 ++ streamDataParts lines,
        Option.or (streamLastFinishReason lines) acc.2.1,
        Option.or (streamLastUsage lines) acc.2.2) := by
  induction lines with
  | nil =>
    intro acc
    simp [streamDataParts, streamLastFinishReason, streamLastUsage]
  | cons l ls ih =>
    intro acc
    rw [List.foldl_cons, collectStep_eq, ih]
    simp only [streamDataParts, streamLastFinishReason, streamLastUsage]
    refine congrArg₂ Prod.mk ?_ (congrArg₂ Prod.mk ?_ ?_)
    · rw [List.append_assoc]
    · rw [optOr_assoc]
    · rw [optOr_assoc]

/-- C7: when the direct unary response has no usable candidate, the
orchestrator returns exactly the aggregation of the (single) streaming call:
a stream that delivered no data raises "Empty response stream", and
otherwise the result is a synthesized unary response whose single candidate
holds all streamed parts in order with the last truthy finish reason and the
last usage metadata. -/
theorem c7_empty_unary_falls_back_to_stream (direct : GeminiResponseM)
    (chunks : List (List SseLine))
    (h : hasUsableGeminiCandidate direct = false) :
    generateInternalWithStreamFallback direct chunks =
        collectGeminiStreamAsResponse chunks ∧
      (chunks = [] →
        collectGeminiStreamAsResponse chunks = Except.error "Empty response stream") ∧
      (chunks ≠ [] →
        collectGeminiStreamAsResponse chunks = Except.ok {
          candidates := [{
            content := some { role := some "model", parts := streamDataParts chunks.flatten }
            finishReason := streamLastFinishReason chunks.flatten
            index := none }]
          usageMetadata := streamLastUsage chunks.flatten }) := by
  refine ⟨?_, ?_, ?_⟩
  · simp [generateInternalWithStreamFallback, h]
  · intro hc
    subst hc
    rfl
  · intro hc
    simp only [collectGeminiStreamAsResponse]
    rw [collect_foldl]
    simp [hc, optOr_none]

/-- C7 witness: an empty direct response and a stream delivering one frame
with text "hello world" and finish reason STOP. -/
theorem c7_witness :
    hasUsableGeminiCandidate ⟨[], none⟩ = false ∧
      generateInternalWithStreamFallback ⟨[], none⟩
          [[SseLine.dataLine (some ⟨[⟨some ⟨none,
            [⟨false, some "hello world", none, none⟩]⟩, some "STOP", none⟩], none⟩)]] =
        collectGeminiStreamAsResponse
          [[SseLine.dataLine (some ⟨[⟨some ⟨none,
            [⟨false, some "hello world", none, none⟩]⟩, some "STOP", none⟩], none⟩)]] ∧
      collectGeminiStreamAsResponse
          [[SseLine.dataLine (some ⟨[⟨some ⟨none,
            [⟨false, some "hello world", none, none⟩]⟩, some "STOP", none⟩], none⟩)]] =
        Except.ok ⟨[⟨some ⟨some "model",
            streamDataParts [SseLine.dataLine (some ⟨[⟨some ⟨none,
              [⟨false, some "hello world", none, none⟩]⟩, some "STOP", none⟩], none⟩)]⟩,
          streamLastFinishReason [SseLine.dataLine (some ⟨[⟨some ⟨none,
            [⟨false, some "hello world", none, none⟩]⟩, some "STOP", none⟩], none⟩)],
          none⟩],
          streamLastUsage [SseLine.dataLine (some ⟨[⟨some ⟨none,
            [⟨false, some "hello world", none, none⟩]⟩, some "STOP", none⟩], none⟩)]⟩ :=
  ⟨rfl,
    (c7_empty_unary_falls_back_to_stream ⟨[], none⟩ _ rfl).1,
    (c7_empty_unary_falls_back_to_stream ⟨[], none⟩ _ rfl).2.2 (List.cons_ne_nil _ _)⟩

/-! ## Claim C6: upstream endpoint failover -/

theorem failover_tried_le {T : Type} (outcomes : List (Except AxiosErrM T)) :
    ∀ lastError, (requestWithEndpointFailoverAux outcomes lastError).2 ≤ outcomes.length := by
  induction outcomes with
  | nil => intro lastError; simp [requestWithEndpointFailoverAux]
  | cons o rest ih =>
    intro lastError
    cases o with
    | ok t => simp [requestWithEndpointFailoverAux]
    | error e =>
      simp only [requestWithEndpointFailoverAux]
      split
      · simp
      · have := ih (some e)
        simp only [List.length_cons]
        omega

theorem failover_tried_pos {T : Type} (outcomes : List (Except AxiosErrM T))
    (lastError : Option AxiosErrM) (h : outcomes ≠ []) :
    1 ≤ (requestWithEndpointFailoverAux outcomes lastError).2 := by
  cases outcomes with
  | nil => exact absurd rfl h
  | cons o rest =>
    cases o with
    | ok t => simp [requestWithEndpointFailoverAux]
    | error e =>
      simp only [requestWithEndpointFailoverAux]
      split
      · simp
      · simp

theorem failover_advance {T : Type} (outcomes : List (Except AxiosErrM T)) :
    ∀ lastError k, k + 1 < (requestWithEndpointFailoverAux outcomes lastError).2 →
      ∃ e, outcomes.get? k = some (Except.error e) ∧
        shouldSwitchEndpointOnError e = true := by
  induction outcomes with
  | nil =>
    intro lastError k h
    simp [requestWithEndpointFailoverAux] at h
  | cons o rest ih =>
    intro lastError k h
    cases o with
    | ok t =>
      simp [requestWithEndpointFailoverAux] at h
    | error e =>
      simp only [requestWithEndpointFailoverAux] at h
      by_cases hs : rest.isEmpty || !shouldSwitchEndpointOnError e
      · rw [if_pos hs] at h
        simp at h
      · rw [if_neg hs] at h
        have hsw : shouldSwitchEndpointOnError e = true := by
          cases hb : shouldSwitchEndpointOnError e
          · exact absurd (by rw [hb]; simp) hs
          · rfl
        simp only at h
        cases k with
        | zero => exact ⟨e, rfl, hsw⟩
        | succ j =>
          have hj : j + 1 < (requestWithEndpointFailoverAux rest (some e)).2 := by omega
          obtain ⟨e2, hg, hs2⟩ := ih (some e) j hj
          exact ⟨e2, by simpa using hg, hs2⟩

theorem failover_last_error {T : Type} (outcomes : List (Except AxiosErrM T)) :
    ∀ lastError e,
      outcomes.get? ((requestWithEndpointFailoverAux outcomes lastError).2 - 1) =
        some (Except.error e) →
      (requestWithEndpointFailoverAux outcomes lastError).1 =
        Except.error (handleAxiosErrorMsg e) := by
  induction outcomes with
  | nil =>
    intro lastError e h
    simp at h
  | cons o rest ih =>
    intro lastError e h
    cases o with
    | ok t =>
      simp [requestWithEndpointFailoverAux] at h
    | error e0 =>
      simp only [requestWithEndpointFailoverAux] at h ⊢
      by_cases hs : rest.isEmpty || !shouldSwitchEndpointOnError e0
      · rw [if_pos hs] at h ⊢
        simp at h
        rw [h]
      · rw [if_neg hs] at h ⊢
        have hrest : rest ≠ [] := by
          intro hnil
          subst hnil
          exact hs (by simp)
        have hpos := failover_tried_pos rest (some e0) hrest
        simp only at h ⊢
        have hidx : (requestWithEndpointFailoverAux rest (some e0)).2 + 1 - 1 =
            ((requestWithEndpointFailoverAux rest (some e0)).2 - 1) + 1 := by omega
        rw [hidx] at h
        exact ih (some e0) e (by simpa using h)

/-- The switch predicate agrees with the spec's transient-failure predicate
(no response, or status 408/429/5xx; in particular never 401/403). -/
theorem shouldSwitch_eq_specTransient (e : AxiosErrM) :
    shouldSwitchEndpointOnError e = specTransientFailure e := by
  unfold shouldSwitchEndpointOnError specTransientFailure
  cases hax : e.isAxiosErr
  · simp
  · cases hr : e.response with
    | none => simp
    | some r =>
      simp only [Bool.not_true, Bool.false_eq_true, if_false, Bool.true_and]
      by_cases h1 : r.status = 401
      · simp [h1]
      · by_cases h3 : r.status = 403
        · simp [h1, h3]
        · simp [h1, h3]

/-- C6, counterexample: at the final endpoint, an upstream body whose
`error.message` is the non-empty (but all-whitespace) string " " is NOT
carried into the thrown error — the transport message is used instead — so
the claim's "non-empty string" condition is falsified; the code requires the
message to be non-empty after trimming. -/
theorem c6_upstream_message_counterexample :
    (requestWithEndpointFailover
        ([Except.error ⟨true, some ⟨500, some ⟨some ⟨some " "⟩⟩⟩, "socket hang up"⟩] :
          List (Except AxiosErrM Nat))).1 = Except.error "socket hang up" ∧
      (" " : String) ≠ "" ∧ ("socket hang up" : String) ≠ " " :=
  ⟨rfl, by decide, by decide⟩

/-- C6, amended: the failover tries the configured endpoints in order,
advancing only on a transient failure — no HTTP response, or status 408,
429, or ≥ 500, never 401/403 — and when the final tried endpoint fails, the
thrown error carries the upstream `error.message` when that is a string
that is non-empty after trimming, otherwise the transport error's own
message. -/
theorem c6_endpoint_failover (T : Type) (outcomes : List (Except AxiosErrM T)) :
    (∀ e, shouldSwitchEndpointOnError e = specTransientFailure e) ∧
      (∀ e r, e.response = some r → r.status = 401 ∨ r.status = 403 →
        shouldSwitchEndpointOnError e = false) ∧
      (requestWithEndpointFailover outcomes).2 ≤ outcomes.length ∧
      (outcomes ≠ [] → 1 ≤ (requestWithEndpointFailover outcomes).2) ∧
      (∀ k, k + 1 < (requestWithEndpointFailover outcomes).2 →
        ∃ e, outcomes.get? k = some (Except.error e) ∧ specTransientFailure e = true) ∧
      (∀ e, outcomes.get? ((requestWithEndpointFailover outcomes).2 - 1) =
          some (Except.error e) →
        (requestWithEndpointFailover outcomes).1 =
          Except.error (handleAxiosErrorMsg e)) ∧
      (∀ e r d o m, e.isAxiosErr = true → e.response = some r → r.data = some d →
        d.error = some o → o.message = some m → strTrim m ≠ "" →
        handleAxiosErrorMsg e = m) ∧
      (∀ e, e.isAxiosErr = true →
        extractAxiosErrorMessage (respDataOf e) = none →
        handleAxiosErrorMsg e = e.message) := by
  refine ⟨shouldSwitch_eq_specTransient, ?_, failover_tried_le outcomes none,
    fun h => failover_tried_pos outcomes none h, ?_, failover_last_error outcomes none, ?_, ?_⟩
  · intro e r hresp hstatus
    rw [shouldSwitch_eq_specTransient]
    unfold specTransientFailure
    rw [hresp]
    rcases hstatus with h | h <;> simp [h]
  · intro k hk
    obtain ⟨e, hg, hsw⟩ := failover_advance outcomes none k hk
    exact ⟨e, hg, by rw [← shouldSwitch_eq_specTransient]; exact hsw⟩
  · intro e r d o m hax hresp hdata herr hmsg hm
    simp only [handleAxiosErrorMsg, hax, if_true, respDataOf, hresp, hdata,
      extractAxiosErrorMessage, herr, hmsg]
    simp [hm]
  · intro e hax hex
    simp only [handleAxiosErrorMsg, hax, if_true, hex]
    rfl

/-- C6 witness: two endpoints, a transient 503 at the first and success at
the second; plus the upstream-message rule at a concrete error. -/
theorem c6_witness :
    (requestWithEndpointFailover
        ([Except.error ⟨true, some ⟨503, none⟩, "503 unavailable"⟩, Except.ok 7] :
          List (Except AxiosErrM Nat))).2 ≤ 2 ∧
      (∃ e, ([Except.error ⟨true, some ⟨503, none⟩, "503 unavailable"⟩, Except.ok 7] :
          List (Except AxiosErrM Nat)).get? 0 = some (Except.error e) ∧
        specTransientFailure e = true) ∧
      handleAxiosErrorMsg ⟨true, some ⟨500, some ⟨some ⟨some "upstream says no"⟩⟩⟩,
        "transport fail"⟩ = "upstream says no" :=
  ⟨(c6_endpoint_failover Nat
      [Except.error ⟨true, some ⟨503, none⟩, "503 unavailable"⟩, Except.ok 7]).2.2.1,
    (c6_endpoint_failover Nat
      [Except.error ⟨true, some ⟨503, none⟩, "503 unavailable"⟩, Except.ok 7]).2.2.2.2.1 0
      (by decide),
    (c6_endpoint_failover Nat
      [Except.error ⟨true, some ⟨503, none⟩, "503 unavailable"⟩, Except.ok 7]).2.2.2.2.2.2.1
      ⟨true, some ⟨500, some ⟨some ⟨some "upstream says no"⟩⟩⟩, "transport fail"⟩
      ⟨500, some ⟨some ⟨some "upstream says no"⟩⟩⟩ ⟨some ⟨some "upstream says no"⟩⟩
      ⟨some "upstream says no"⟩ "upstream says no" rfl rfl rfl rfl rfl (by decide)⟩

/-! ## Claim C3: selection returns an account whenever the pool is non-empty -/

theorem allTokensAfterExclusion_ne_nil (tokens : List (String × TokenData))
    (excluded : List String) (h : tokens ≠ []) :
    allTokensAfterExclusion tokens excluded ≠ [] := by
  simp only [allTokensAfterExclusion]
  split
  · exact h
  · rename_i hne
    intro hnil
    exact hne (by rw [hnil]; rfl)

theorem computeCandidates_ne_nil (tokens : List (String × TokenData))
    (excluded : List String) (cooldowns : String → Option Nat) (now : Nat)
    (h : tokens ≠ []) :
    computeCandidates tokens excluded cooldowns now ≠ [] := by
  simp only [computeCandidates]
  split
  · exact allTokensAfterExclusion_ne_nil tokens excluded h
  · rename_i hne
    intro hnil
    exact hne (by rw [hnil]; rfl)

/-- C3: `getNextToken` returns an account exactly when the pool — after the
empty-pool reload from the store — is non-empty: the exclusion fallback and
the cooldown fallback guarantee a non-empty candidate list, so `nil` comes
back only from an empty pool. -/
theorem c3_selection_total (refresh : String → Option RefreshResult) (gen : String)
    (store : List StoredAccount) (st : PoolState) (opts : SelectOptions) (nowMs : Nat) :
    ((getNextToken refresh gen store st opts nowMs).1).isSome = true ↔
      effectivePool gen store st.tokens ≠ [] := by
  simp only [getNextToken]
  generalize effectivePool gen store st.tokens = T
  by_cases hT : T.isEmpty = true
  · simp [hT, List.isEmpty_iff.mp hT]
  · have hTfalse : T.isEmpty = false := by
      cases hb : T.isEmpty
      · rfl
      · exact absurd hb hT
    have hTne : T ≠ [] := List.isEmpty_eq_false.mp hTfalse
    simp only [hTfalse, Bool.false_eq_true, if_false]
    cases hcand : computeCandidates T opts.excludeAccountIds st.cooldowns nowMs with
    | nil => exact absurd hcand (computeCandidates_ne_nil T _ _ _ hTne)
    | cons c cs =>
      constructor
      · intro _
        exact hTne
      · intro _
        dsimp only
        split <;> rfl

/-! ## Claim C4: session binding semantics -/

theorem fnSet_self {β : Type} (f : String → Option β) (k : String) (v : β) :
    fnSet f k v k = some v := by
  simp [fnSet]

theorem fnSet_other {β : Type} (f : String → Option β) (k q : String) (v : β)
    (h : q ≠ k) : fnSet f k v q = f q := by
  simp [fnSet, h]

theorem clearExpired_lt (f : String → Option SessionBinding) (now : Nat) (k : String)
    (b : SessionBinding) (h : clearExpiredSessionBindings f now k = some b) :
    now < b.expiresAt := by
  unfold clearExpiredSessionBindings at h
  cases hf : f k with
  | none => rw [hf] at h; dsimp only at h; cases h
  | some b0 =>
    rw [hf] at h
    dsimp only at h
    by_cases hle : b0.expiresAt ≤ now
    · rw [if_pos hle] at h; cases h
    · rw [if_neg hle] at h
      cases h
      omega

theorem clearExpired_of_live (f : String → Option SessionBinding) (now : Nat) (k : String)
    (b : SessionBinding) (hb : f k = some b) (hlt : now < b.expiresAt) :
    clearExpiredSessionBindings f now k = some b := by
  unfold clearExpiredSessionBindings
  rw [hb]
  dsimp only
  rw [if_neg (by omega)]

theorem clearExpired_of_expired (f : String → Option SessionBinding) (now : Nat) (k : String)
    (b : SessionBinding) (hb : f k = some b) (hle : b.expiresAt ≤ now) :
    clearExpiredSessionBindings f now k = none := by
  unfold clearExpiredSessionBindings
  rw [hb]
  dsimp only
  rw [if_pos hle]

theorem finalize_id (refresh : String → Option RefreshResult) (st : PoolState)
    (accountId : String) (td : TokenData) (nowMs : Nat) (sessionKey : Option String) :
    (finalizeSelectedToken refresh st accountId td nowMs sessionKey).1.id = accountId := rfl

theorem finalize_bindings (refresh : String → Option RefreshResult) (st : PoolState)
    (accountId : String) (td : TokenData) (nowMs : Nat) (sk : String) :
    (finalizeSelectedToken refresh st accountId td nowMs (some sk)).2.sessionBindings =
      fnSet st.sessionBindings sk ⟨accountId, nowMs + stickySessionTtlMs⟩ := rfl

/-- C4: a selection with a session key finalizes by writing a binding for
that key to the selected account with expiry 10 minutes ahead; every binding
present after the selection is unexpired (expired ones are evicted and a
fresh one is written); a live pre-existing binding is honoured exactly when
its account is in the computed candidate set (so a cooled bound account does
not win stickiness unless the cooldown fallback already re-admitted it); and
an expired binding is never reused. -/
theorem c4_session_stickiness (refresh : String → Option RefreshResult) (gen : String)
    (store : List StoredAccount) (st : PoolState) (opts : SelectOptions) (nowMs : Nat)
    (sk : String)
    (hsk : normalizedSessionKey opts.sessionKey = some sk)
    (htok : st.tokens ≠ []) :
    stickySessionTtlMs = 10 * 60 * 1000 ∧
      ∃ acc st2, getNextToken refresh gen store st opts nowMs = (some acc, st2) ∧
        st2.sessionBindings sk = some ⟨acc.id, nowMs + stickySessionTtlMs⟩ ∧
        (∀ k b2, st2.sessionBindings k = some b2 → nowMs < b2.expiresAt) ∧
        (∀ b, st.sessionBindings sk = some b → nowMs < b.expiresAt →
          (acc.id = b.accountId ↔
            b.accountId ∈ (computeCandidates st.tokens opts.excludeAccountIds st.cooldowns
              nowMs).map Prod.fst)) ∧
        (∀ b, st.sessionBindings sk = some b → b.expiresAt ≤ nowMs →
          st2.sessionBindings sk ≠ some b) := by
  refine ⟨rfl, ?_⟩
  have hTfalse : st.tokens.isEmpty = false := List.isEmpty_eq_false.mpr htok
  have hEff : effectivePool gen store st.tokens = st.tokens := by
    simp [effectivePool, hTfalse]
  have httl : stickySessionTtlMs = 600000 := rfl
  simp only [getNextToken, hEff, hTfalse, Bool.false_eq_true, if_false, hsk]
  cases hcand : computeCandidates st.tokens opts.excludeAccountIds st.cooldowns nowMs with
  | nil => exact absurd hcand (computeCandidates_ne_nil _ _ _ _ htok)
  | cons c cs =>
    cases hB : clearExpiredSessionBindings st.sessionBindings nowMs sk with
    | some b0 =>
      have hb0lt : nowMs < b0.expiresAt := clearExpired_lt _ _ _ _ hB
      dsimp only
      rw [if_pos hb0lt]
      cases hfind : (c :: cs).find? (fun p => p.1 = b0.accountId) with
      | some p =>
        dsimp only
        refine ⟨_, _, rfl, ?_, ?_, ?_, ?_⟩
        · rw [finalize_bindings, finalize_id, fnSet_self]
        · intro k b2 h2
          rw [finalize_bindings] at h2
          by_cases hk : k = sk
          · subst hk
            rw [fnSet_self] at h2
            cases h2
            show nowMs < nowMs + stickySessionTtlMs
            rw [httl]
            omega
          · rw [fnSet_other _ _ _ _ hk] at h2
            exact clearExpired_lt _ _ _ _ h2
        · intro b hb hlt
          have hbb : b = b0 := by
            have := clearExpired_of_live st.sessionBindings nowMs sk b hb hlt
            rw [this] at hB
            cases hB
            rfl
          subst hbb
          have hpid : p.1 = b.accountId := by
            have := List.find?_some hfind
            simpa using this
          rw [finalize_id]
          refine iff_of_true hpid ?_
          exact List.mem_map.mpr ⟨p, List.mem_of_find?_eq_some hfind, hpid⟩
        · intro b hb hle
          rw [clearExpired_of_expired st.sessionBindings nowMs sk b hb hle] at hB
          cases hB
      | none =>
        dsimp only
        refine ⟨_, _, rfl, ?_, ?_, ?_, ?_⟩
        · rw [finalize_bindings, finalize_id, fnSet_self]
        · intro k b2 h2
          rw [finalize_bindings] at h2
          by_cases hk : k = sk
          · subst hk
            rw [fnSet_self] at h2
            cases h2
            show nowMs < nowMs + stickySessionTtlMs
            rw [httl]
            omega
          · rw [fnSet_other _ _ _ _ hk] at h2
            exact clearExpired_lt _ _ _ _ h2
        · intro b hb hlt
          have hbb : b = b0 := by
            have := clearExpired_of_live st.sessionBindings nowMs sk b hb hlt
            rw [this] at hB
            cases hB
            rfl
          subst hbb
          have hnone := List.find?_eq_none.mp hfind
          rw [finalize_id]
          refine iff_of_false ?_ ?_
          · intro hid
            exact absurd (by simpa using hid) (by
              simpa using hnone _ (List.get_mem _ _ _))
          · intro hmem
            obtain ⟨q, hqmem, hqid⟩ := List.mem_map.mp hmem
            exact absurd (by simpa using hqid) (by simpa using hnone q hqmem)
        · intro b hb hle
          rw [clearExpired_of_expired st.sessionBindings nowMs sk b hb hle] at hB
          cases hB
    | none =>
      dsimp only
      refine ⟨_, _, rfl, ?_, ?_, ?_, ?_⟩
      · rw [finalize_bindings, finalize_id, fnSet_self]
      · intro k b2 h2
        rw [finalize_bindings] at h2
        by_cases hk : k = sk
        · subst hk
          rw [fnSet_self] at h2
          cases h2
          show nowMs < nowMs + stickySessionTtlMs
          rw [httl]
          omega
        · rw [fnSet_other _ _ _ _ hk] at h2
          exact clearExpired_lt _ _ _ _ h2
      · intro b hb hlt
        rw [clearExpired_of_live st.sessionBindings nowMs sk b hb hlt] at hB
        cases hB
      · intro b hb hle
        rw [finalize_bindings, fnSet_self]
        intro h2
        cases h2
        exact absurd hle (by
          show ¬(nowMs + stickySessionTtlMs ≤ nowMs)
          rw [httl]
          omega)

/-- C4 witness: a one-account pool with a live binding for session key
"s". -/
theorem c4_witness :
    stickySessionTtlMs = 10 * 60 * 1000 ∧
      ∃ acc st2,
        getNextToken (fun _ => none) "g" []
            ⟨0, [("A", ⟨"a", "A", "at", "rt", "Bearer", 3600, 1000000000, none, none, none⟩)],
              fun _ => none,
              fun k => if k = "s" then some ⟨"A", 50⟩ else none⟩
            ⟨some "s", []⟩ 10 = (some acc, st2) ∧
          st2.sessionBindings "s" = some ⟨acc.id, 10 + stickySessionTtlMs⟩ ∧
          (∀ k b2, st2.sessionBindings k = some b2 → 10 < b2.expiresAt) ∧
          (∀ b, (if "s" = "s" then some (⟨"A", 50⟩ : SessionBinding) else none) = some b →
            10 < b.expiresAt →
            (acc.id = b.accountId ↔
              b.accountId ∈ (computeCandidates
                [("A", ⟨"a", "A", "at", "rt", "Bearer", 3600, 1000000000, none, none, none⟩)]
                [] (fun _ => none) 10).map Prod.fst)) ∧
          (∀ b, (if "s" = "s" then some (⟨"A", 50⟩ : SessionBinding) else none) = some b →
            b.expiresAt ≤ 10 → st2.sessionBindings "s" ≠ some b) :=
  c4_session_stickiness (fun _ => none) "g" []
    ⟨0, [("A", ⟨"a", "A", "at", "rt", "Bearer", 3600, 1000000000, none, none, none⟩)],
      fun _ => none, fun k => if k = "s" then some ⟨"A", 50⟩ else none⟩
    ⟨some "s", []⟩ 10 "s" (by decide) (by decide)

/-! ## Claim C1: the orchestrator retry loop -/

/-- C1, counterexample: an attempt failing with an error classified as the
"Otherwise" case (`retry = false`) does NOT make the orchestrator surface
that error — the loop proceeds to a second attempt on another account and
returns its success.  Classification only decides the cooldown marking. -/
theorem c1_no_retry_counterexample :
    classifyUpstreamError "some strange failure" = ⟨false, false, false⟩ ∧
      (runRetryLoop
          (fun excl => if excl.isEmpty then
            some ⟨"A", "google", "a", ⟨"at", "rt", "Bearer", 3600, 0, none, none, none⟩, 0, 0⟩
          else
            some ⟨"B", "google", "b", ⟨"bt", "rt", "Bearer", 3600, 0, none, none, none⟩, 0, 0⟩)
          (fun token => if token.id = "A" then Except.error "some strange failure"
            else Except.ok "served-by-B")
          "No available accounts (all exhausted or rate limited)"
          "Request failed after retries").1 = Except.ok "served-by-B" ∧
      (runRetryLoop
          (fun excl => if excl.isEmpty then
            some ⟨"A", "google", "a", ⟨"at", "rt", "Bearer", 3600, 0, none, none, none⟩, 0, 0⟩
          else
            some ⟨"B", "google", "b", ⟨"bt", "rt", "Bearer", 3600, 0, none, none, none⟩, 0, 0⟩)
          (fun token => if token.id = "A" then Except.error "some strange failure"
            else Except.ok "served-by-B")
          "No available accounts (all exhausted or rate limited)"
          "Request failed after retries").2.length = 2 :=
  ⟨by decide, rfl, rfl⟩

/-- Invariants of the retry loop, generalized over the remaining fuel, the
already-attempted ids and the remembered last error. -/
theorem runRetryLoopAux_props {α : Type} (select : List String → Option CloudAccountM)
    (attempt : CloudAccountM → Except String α) (n1 n2 : String) :
    ∀ (fuel : Nat) (attempted : List String) (le : Option String),
      (runRetryLoopAux select attempt n1 n2 fuel attempted le).2.length ≤ fuel ∧
      (∀ k r, (runRetryLoopAux select attempt n1 n2 fuel attempted le).2[k]? = some r →
        r.excludeAccountIds =
          attempted ++ ((runRetryLoopAux select attempt n1 n2 fuel attempted le).2.take k).map
            (fun a => a.selectedId)) ∧
      (∀ k r, (runRetryLoopAux select attempt n1 n2 fuel attempted le).2[k]? = some r →
        k + 1 ≠ (runRetryLoopAux select attempt n1 n2 fuel attempted le).2.length →
        ∃ e, r.outcome = Except.error e) ∧
      (∀ v, (runRetryLoopAux select attempt n1 n2 fuel attempted le).1 = Except.ok v →
        ∃ r, (runRetryLoopAux select attempt n1 n2 fuel attempted le).2.getLast? = some r ∧
          r.outcome = Except.ok v) ∧
      ((runRetryLoopAux select attempt n1 n2 fuel attempted le).2.length < fuel →
        (runRetryLoopAux select attempt n1 n2 fuel attempted le).1 = Except.error n1 ∨
        ∃ v, (runRetryLoopAux select attempt n1 n2 fuel attempted le).1 = Except.ok v) ∧
      (fuel = 0 →
        (runRetryLoopAux select attempt n1 n2 fuel attempted le).1 =
          Except.error (le.getD n2) ∧
        (runRetryLoopAux select attempt n1 n2 fuel attempted le).2 = []) ∧
      (∀ r e, (runRetryLoopAux select attempt n1 n2 fuel attempted le).2.getLast? = some r →
        r.outcome = Except.error e →
        (runRetryLoopAux select attempt n1 n2 fuel attempted le).2.length = fuel →
        (runRetryLoopAux select attempt n1 n2 fuel attempted le).1 = Except.error e) := by
  intro fuel
  induction fuel with
  | zero =>
    intro attempted le
    refine ⟨Nat.le_refl _, ?_, ?_, ?_, ?_, ?_, ?_⟩
    · intro k r h
      simp [runRetryLoopAux] at h
    · intro k r h
      simp [runRetryLoopAux] at h
    · intro v hv
      simp [runRetryLoopAux] at hv
    · intro h
      simp [runRetryLoopAux] at h
    · intro _
      exact ⟨rfl, rfl⟩
    · intro r e h
      simp [runRetryLoopAux] at h
  | succ fuel ih =>
    intro attempted le
    cases hsel : select attempted with
    | none =>
      simp only [runRetryLoopAux, hsel]
      refine ⟨by simp, ?_, ?_, ?_, ?_, ?_, ?_⟩
      · intro k r h
        simp at h
      · intro k r h
        simp at h
      · intro v hv
        simp at hv
      · intro _
        simp
      · intro h0
        cases h0
      · intro r e h
        simp at h
    | some token =>
      cases hatt : attempt token with
      | ok a =>
        simp only [runRetryLoopAux, hsel, hatt]
        refine ⟨by simp, ?_, ?_, ?_, ?_, ?_, ?_⟩
        · intro k r h
          cases k with
          | zero =>
            simp only [List.getElem?_cons_zero, Option.some.injEq] at h
            subst h
            simp
          | succ j =>
            simp at h
        · intro k r h hk
          cases k with
          | zero => simp at hk
          | succ j => simp at h
        · intro v hv
          cases hv
          exact ⟨⟨attempted, token.id, Except.ok a⟩, List.getLast?_singleton _, rfl⟩
        · intro _
          exact Or.inr ⟨a, rfl⟩
        · intro h0
          cases h0
        · intro r e h he
          simp only [List.getLast?_singleton, Option.some.injEq] at h
          subst h
          simp at he
      | error e0 =>
        simp only [runRetryLoopAux, hsel, hatt]
        obtain ⟨ih1, ih2, ih3, ih4, ih5, ih6, ih7⟩ := ih (attempted ++ [token.id]) (some e0)
        refine ⟨by simpa using Nat.succ_le_succ ih1, ?_, ?_, ?_, ?_, ?_, ?_⟩
        · intro k r h
          cases k with
          | zero =>
            simp only [List.getElem?_cons_zero, Option.some.injEq] at h
            subst h
            simp
          | succ j =>
            simp only [List.getElem?_cons_succ] at h
            rw [ih2 j r h]
            simp
        · intro k r h hk
          cases k with
          | zero =>
            simp only [List.getElem?_cons_zero, Option.some.injEq] at h
            subst h
            exact ⟨e0, rfl⟩
          | succ j =>
            simp only [List.getElem?_cons_succ] at h
            refine ih3 j r h ?_
            intro hx
            exact hk (by simp [hx])
        · intro v hv
          obtain ⟨r, hlast, hout⟩ := ih4 v hv
          refine ⟨r, ?_, hout⟩
          cases hrest : (runRetryLoopAux select attempt n1 n2 fuel (attempted ++ [token.id])
              (some e0)).2 with
          | nil => simp [hrest] at hlast
          | cons x xs =>
            rw [hrest] at hlast
            rw [List.getLast?_cons_cons]
            exact hlast
        · intro h
          simp only [List.length_cons, Nat.succ_lt_succ_iff] at h
          exact ih5 h
        · intro h0
          cases h0
        · intro r e hlast hout hlen
          simp only [List.length_cons, Nat.succ.injEq] at hlen
          cases hrest : (runRetryLoopAux select attempt n1 n2 fuel (attempted ++ [token.id])
              (some e0)).2 with
          | nil =>
            have hfuel : fuel = 0 := by
              rw [hrest] at hlen
              simpa using hlen.symm
            obtain ⟨hres, -⟩ := ih6 hfuel
            rw [hrest] at hlast
            simp only [List.getLast?_singleton, Option.some.injEq] at hlast
            subst hlast
            have he0 : e0 = e := by simpa using hout
            simp only [hres]
            rw [he0]
            rfl
          | cons x xs =>
            rw [hrest] at hlast
            rw [List.getLast?_cons_cons] at hlast
            rw [← hrest] at hlast
            exact ih7 r e hlast hout (by rw [hrest] at hlen ⊢; simpa using hlen)

/-- C1, amended: each of the four public handlers runs the identical retry
loop with `maxRetries = 3`: at most three attempts; each attempt calls the
selector with `excludeAccountIds` equal to exactly the ids selected by the
previous attempts and adds the new id to the attempted set; every
non-final attempt ended in an error, and the loop proceeds to the next
attempt after ANY failed attempt (classification only gates the cooldown
marking — it never stops the loop); an early exit is either a success or
selector exhaustion, and after three failed attempts the last error is
surfaced. -/
theorem c1_retry_loop_shape {α : Type} (select : List String → Option CloudAccountM)
    (attempt : CloudAccountM → Except String α) (n1 n2 : String) :
    maxRetries = 3 ∧
      (runRetryLoop select attempt n1 n2).2.length ≤ 3 ∧
      (∀ k r, (runRetryLoop select attempt n1 n2).2[k]? = some r →
        r.excludeAccountIds =
          ((runRetryLoop select attempt n1 n2).2.take k).map (fun a => a.selectedId)) ∧
      (∀ k r, (runRetryLoop select attempt n1 n2).2[k]? = some r →
        k + 1 ≠ (runRetryLoop select attempt n1 n2).2.length →
        ∃ e, r.outcome = Except.error e) ∧
      (∀ v, (runRetryLoop select attempt n1 n2).1 = Except.ok v →
        ∃ r, (runRetryLoop select attempt n1 n2).2.getLast? = some r ∧
          r.outcome = Except.ok v) ∧
      ((runRetryLoop select attempt n1 n2).2.length < 3 →
        (runRetryLoop select attempt n1 n2).1 = Except.error n1 ∨
        ∃ v, (runRetryLoop select attempt n1 n2).1 = Except.ok v) ∧
      (∀ r e, (runRetryLoop select attempt n1 n2).2.getLast? = some r →
        r.outcome = Except.error e →
        (runRetryLoop select attempt n1 n2).2.length = 3 →
        (runRetryLoop select attempt n1 n2).1 = Except.error e) := by
  obtain ⟨h1, h2, h3, h4, h5, h6, h7⟩ := runRetryLoopAux_props select attempt n1 n2 3 [] none
  refine ⟨rfl, h1, ?_, h3, h4, h5, h7⟩
  intro k r h
  simpa using h2 k r h

/-- C1 witness: a selector that always offers account "A" and an attempt
that always fails with "boom" — three attempts, then the last error is
surfaced. -/
theorem c1_witness :
    (runRetryLoop
        (fun _ => some ⟨"A", "google", "a", ⟨"at", "rt", "Bearer", 3600, 0, none, none, none⟩,
          0, 0⟩)
        (fun _ => (Except.error "boom" : Except String String)) "n1" "n2").2.length ≤ 3 ∧
      (runRetryLoop
        (fun _ => some ⟨"A", "google", "a", ⟨"at", "rt", "Bearer", 3600, 0, none, none, none⟩,
          0, 0⟩)
        (fun _ => (Except.error "boom" : Except String String)) "n1" "n2").1 =
        Except.error "boom" :=
  ⟨(c1_retry_loop_shape
      (fun _ => some ⟨"A", "google", "a", ⟨"at", "rt", "Bearer", 3600, 0, none, none, none⟩,
        0, 0⟩)
      (fun _ => (Except.error "boom" : Except String String)) "n1" "n2").2.1,
    (c1_retry_loop_shape
      (fun _ => some ⟨"A", "google", "a", ⟨"at", "rt", "Bearer", 3600, 0, none, none, none⟩,
        0, 0⟩)
      (fun _ => (Except.error "boom" : Except String String)) "n1" "n2").2.2.2.2.2.2
      ⟨["A", "A"], "A", Except.error "boom"⟩ "boom" rfl rfl rfl⟩

end S2P
